import Mathlib

/-!
Verification development for the Scarlet compiler (a small C-like language
compiler front-end: lexer, recursive-descent parser, semantic analyzer and
LLVM-style IR lowering).

The definitions below are a shallow embedding of the C++ sources:
  - `src/include/Common.h`   : `TokenType`, `DataType`, `OperatorType`
  - `src/src/Utils.cpp`      : character classes, `escapeString`, `unescapeString`
  - `src/src/Lexer.cpp`      : `Lexer::tokenize` and its helpers
  - `src/src/Parser.cpp`     : the recursive-descent parser
  - `src/src/Semantic.cpp`   : `SymbolTable`, `TypeChecker`, `SemanticAnalyzer`
  - `src/src/CodeGen.cpp`    : `LLVMCodeGenerator`
  - `src/src/main.cpp`       : the `compileFile` stage sequencing

Modelling conventions, used consistently below:
  - `SourceLocation` values are claim-irrelevant (no claim mentions line or
    column numbers), so tokens and AST nodes are modelled without them and
    diagnostics keep only their message text.
  - C++ strings are modelled as `String` / `List Char`; the lexer cursor
    (`source_`, `current_`) is modelled by the suffix of the character list
    that is still unread.
  - `std::unordered_map` values are modelled as association lists observed
    only through lookup; `m[k] = v` is modelled by prepending, which is
    lookup-equivalent to in-place replacement.
  - Exceptions (`CompilerError`) are modelled with `Except String`.
-/

namespace Scarlet

/-- Token kinds from `Common.h`.  The published enum lacks `SLASH` and
`COLON`, yet `Parser.cpp` refers to `TokenType::SLASH` and
`TokenType::COLON`; they are included here as the minimal completion that
makes `Parser.cpp` well-formed.  Nothing in `Lexer.cpp` ever produces
either of them (`/` lexes as `DIVIDE`, and `:` has no case at all). -/
inductive TokenType where
  | INTEGER | FLOAT | STRING | IDENTIFIER
  | IF | ELSE | WHILE | FOR | RETURN | FUNCTION | VAR | LET | CONST
  | TRUE | FALSE | NULL_LITERAL
  | PLUS | MINUS | MULTIPLY | DIVIDE | MODULO
  | ASSIGN | EQUAL | NOT_EQUAL | LESS | LESS_EQUAL | GREATER | GREATER_EQUAL
  | AND | OR | NOT
  | LEFT_PAREN | RIGHT_PAREN | LEFT_BRACE | RIGHT_BRACE
  | LEFT_BRACKET | RIGHT_BRACKET | SEMICOLON | COMMA | DOT
  | END_OF_FILE | ERROR
  | SLASH | COLON
deriving DecidableEq, Repr

/-- `DataType` from `Common.h`. -/
inductive DataType where
  | VOID | INT | FLOAT | BOOL | STRING | ARRAY | FUNCTION | UNKNOWN
deriving DecidableEq, Repr

/-- `OperatorType` from `Common.h`. -/
inductive OperatorType where
  | ADD | SUBTRACT | MULTIPLY | DIVIDE | MODULO
  | ASSIGN | EQUAL | NOT_EQUAL | LESS | LESS_EQUAL | GREATER | GREATER_EQUAL
  | AND | OR | NOT
deriving DecidableEq, Repr

/-- A token (`Lexer.h`), without its claim-irrelevant `SourceLocation`. -/
structure Token where
  type : TokenType
  value : String
deriving DecidableEq, Repr

/-! ### Character utilities (`Utils.cpp`) -/

/-- `isWhitespace` from `Utils.cpp`: `std::isspace` in the C locale. -/
def isWhitespace (c : Char) : Bool :=
  c = ' ' || c = '\t' || c = '\n' || c = '\x0b' || c = '\x0c' || c = '\r'

/-- `isDigit` from `Utils.cpp`: `std::isdigit` (ASCII digits). -/
def isDigit (c : Char) : Bool :=
  '0' ≤ c && c ≤ '9'

/-- `isAlpha` from `Utils.cpp`: `std::isalpha` (ASCII letters) or underscore. -/
def isAlpha (c : Char) : Bool :=
  ('a' ≤ c && c ≤ 'z') || ('A' ≤ c && c ≤ 'Z') || c = '_'

/-- `isAlphaNumeric` from `Utils.cpp`. -/
def isAlphaNumeric (c : Char) : Bool :=
  isAlpha c || isDigit c

/-! ### String escape helpers (`Utils.cpp`) -/

/-- One iteration of the `escapeString` loop: the expansion of a single
character (the five escaped characters, every other character unchanged). -/
def escapeChar (c : Char) : List Char :=
  if c = '\\' then ['\\', '\\']
  else if c = '"' then ['\\', '"']
  else if c = '\n' then ['\\', 'n']
  else if c = '\t' then ['\\', 't']
  else if c = '\r' then ['\\', 'r']
  else [c]

/-- `escapeString` from `Utils.cpp`, on character lists. -/
def escapeChars : List Char → List Char
  | [] => []
  | c :: rest => escapeChar c ++ escapeChars rest

/-- The inverse mapping of the `unescapeString` switch: what is appended
for the character following a backslash. -/
def unescChar (c : Char) : Char :=
  if c = '\\' then '\\'
  else if c = '"' then '"'
  else if c = 'n' then '\n'
  else if c = 't' then '\t'
  else if c = 'r' then '\r'
  else c

/-- `unescapeString` from `Utils.cpp`, on character lists.  A backslash
followed by at least one character consumes that character through the
switch; a trailing backslash is copied verbatim (the `i + 1 < length`
guard fails). -/
def unescapeChars : List Char → List Char
  | [] => []
  | c :: rest =>
    if c = '\\' then
      match rest with
      | [] => [c]
      | d :: rest2 => unescChar d :: unescapeChars rest2
    else c :: unescapeChars rest

/-- `escapeString` from `Utils.cpp`. -/
def escapeString (s : String) : String := String.mk (escapeChars s.data)

/-- `unescapeString` from `Utils.cpp`. -/
def unescapeString (s : String) : String := String.mk (unescapeChars s.data)

/-! ### Lexer (`Lexer.cpp`) -/

/-- `Lexer::initializeKeywords`: the keyword table, observed through lookup. -/
def keywordFor (text : String) : Option TokenType :=
  if text = "if" then some .IF
  else if text = "else" then some .ELSE
  else if text = "while" then some .WHILE
  else if text = "for" then some .FOR
  else if text = "return" then some .RETURN
  else if text = "function" then some .FUNCTION
  else if text = "var" then some .VAR
  else if text = "let" then some .LET
  else if text = "const" then some .CONST
  else if text = "true" then some .TRUE
  else if text = "false" then some .FALSE
  else if text = "null" then some .NULL_LITERAL
  else none

/-- `Lexer::skipWhitespace`: drop leading whitespace. -/
def skipWhitespace : List Char → List Char
  | [] => []
  | c :: rest => if isWhitespace c then skipWhitespace rest else c :: rest

/-- `Lexer::skipComment`: drop characters up to (not including) the next
newline. -/
def skipComment : List Char → List Char
  | [] => []
  | c :: rest => if c = '\n' then c :: rest else skipComment rest

/-- The scanning loop of `Lexer::readNumber`: starting after the first
digit with decimal-point flag `hasDecimal`, consume digits, and one `.`
while `hasDecimal` is still false.  Returns the consumed characters, the
final flag, and the unread remainder. -/
def readNumberLoop (hasDecimal : Bool) : List Char → List Char × Bool × List Char
  | [] => ([], hasDecimal, [])
  | c :: rest =>
    if isDigit c || (!hasDecimal && c = '.') then
      let (tl, hd, rem) := readNumberLoop (hasDecimal || c = '.') rest
      (c :: tl, hd, rem)
    else ([], hasDecimal, c :: rest)

/-- `Lexer::readNumber`, entered with the first digit `c` already
consumed: the token is `FLOAT` when a decimal point was consumed and
`INTEGER` otherwise. -/
def readNumber (c : Char) (s : List Char) : Token × List Char :=
  let (tl, hd, rem) := readNumberLoop false s
  ({ type := if hd then .FLOAT else .INTEGER, value := String.mk (c :: tl) }, rem)

/-- The scanning loop of `Lexer::readIdentifier`: consume the alphanumeric
run. -/
def readIdentifierLoop : List Char → List Char × List Char
  | [] => ([], [])
  | c :: rest =>
    if isAlphaNumeric c then
      let (tl, rem) := readIdentifierLoop rest
      (c :: tl, rem)
    else ([], c :: rest)

/-- `Lexer::readIdentifier`, entered with the first character `c` already
consumed: keyword-table lookup decides between a keyword token and
`IDENTIFIER`. -/
def readIdentifier (c : Char) (s : List Char) : Token × List Char :=
  let (tl, rem) := readIdentifierLoop s
  let text := String.mk (c :: tl)
  match keywordFor text with
  | some kw => ({ type := kw, value := text }, rem)
  | none => ({ type := .IDENTIFIER, value := text }, rem)

/-- The scanning loop of `Lexer::readString`, entered after the opening
quote: `some (content, rest)` on reaching the closing quote,
`none` paired with the unread remainder on a newline (the newline is not
consumed) or on end of input. -/
def readStringLoop : List Char → Option (List Char) × List Char
  | [] => (none, [])
  | c :: rest =>
    if c = '"' then (some [], rest)
    else if c = '\n' then (none, c :: rest)
    else
      match readStringLoop rest with
      | (some content, rem) => (some (c :: content), rem)
      | (none, rem) => (none, rem)

/-- `Lexer::readString`: the stored lexeme excludes the quotes; a newline
inside the literal or end of input yields the `errorToken`
"Unterminated string". -/
def readString (s : List Char) : Token × List Char :=
  match readStringLoop s with
  | (some content, rem) => ({ type := .STRING, value := String.mk content }, rem)
  | (none, rem) => ({ type := .ERROR, value := "Unterminated string" }, rem)

/-- The two-character operator table of `Lexer::readOperator`. -/
def twoCharOp (a b : Char) : Option (TokenType × String) :=
  if a = '=' && b = '=' then some (.EQUAL, "==")
  else if a = '!' && b = '=' then some (.NOT_EQUAL, "!=")
  else if a = '<' && b = '=' then some (.LESS_EQUAL, "<=")
  else if a = '>' && b = '=' then some (.GREATER_EQUAL, ">=")
  else if a = '&' && b = '&' then some (.AND, "&&")
  else if a = '|' && b = '|' then some (.OR, "||")
  else none

/-- The single-character switch of `Lexer::readOperator`; the default case
is the `errorToken` "Unexpected character: c".  Note the absence of a
case for `:`. -/
def singleCharToken (c : Char) : Token :=
  if c = '(' then { type := .LEFT_PAREN, value := "(" }
  else if c = ')' then { type := .RIGHT_PAREN, value := ")" }
  else if c = '\x7b' then { type := .LEFT_BRACE, value := "\x7b" }
  else if c = '\x7d' then { type := .RIGHT_BRACE, value := "\x7d" }
  else if c = '[' then { type := .LEFT_BRACKET, value := "[" }
  else if c = ']' then { type := .RIGHT_BRACKET, value := "]" }
  else if c = ';' then { type := .SEMICOLON, value := ";" }
  else if c = ',' then { type := .COMMA, value := "," }
  else if c = '.' then { type := .DOT, value := "." }
  else if c = '+' then { type := .PLUS, value := "+" }
  else if c = '-' then { type := .MINUS, value := "-" }
  else if c = '*' then { type := .MULTIPLY, value := "*" }
  else if c = '/' then { type := .DIVIDE, value := "/" }
  else if c = '%' then { type := .MODULO, value := "%" }
  else if c = '=' then { type := .ASSIGN, value := "=" }
  else if c = '<' then { type := .LESS, value := "<" }
  else if c = '>' then { type := .GREATER, value := ">" }
  else if c = '!' then { type := .NOT, value := "!" }
  else { type := .ERROR, value := "Unexpected character: " ++ String.mk [c] }

/-- `Lexer::readOperator`, entered with the character `c` already
consumed: try the two-character operators against the next unread
character first, else the single-character switch. -/
def readOperator (c : Char) (s : List Char) : Token × List Char :=
  match s with
  | next :: rest =>
    match twoCharOp c next with
    | some (ty, txt) => ({ type := ty, value := txt }, rest)
    | none => (singleCharToken c, next :: rest)
  | [] => (singleCharToken c, [])

/-- `Lexer::nextToken`.  The recursion after a `//` comment is modelled
with fuel; each call consumes at least the two comment slashes, so fuel
`s.length` always suffices (`nextTokenFuel` is only ever applied through
`tokenize`, with ample fuel). -/
def nextTokenFuel : Nat → List Char → Option Token × List Char
  | 0, s => (none, s)
  | fuel + 1, s =>
    match skipWhitespace s with
    | [] => (none, [])
    | c :: rest =>
      if c = '/' && rest.head? = some '/' then
        nextTokenFuel fuel (skipComment rest.tail)
      else if isAlpha c then
        let (t, rem) := readIdentifier c rest
        (some t, rem)
      else if isDigit c then
        let (t, rem) := readNumber c rest
        (some t, rem)
      else if c = '"' then
        let (t, rem) := readString rest
        (some t, rem)
      else
        let (t, rem) := readOperator c rest
        (some t, rem)

/-- The `while (!isAtEnd())` loop of `Lexer::tokenize`, with fuel: every
iteration consumes at least one character, so fuel `s.length + 1` always
suffices. -/
def tokenizeLoop : Nat → List Char → List Token
  | 0, _ => []
  | fuel + 1, s =>
    match s with
    | [] => []
    | _ =>
      match nextTokenFuel (s.length + 1) s with
      | (some t, rem) => t :: tokenizeLoop fuel rem
      | (none, rem) => tokenizeLoop fuel rem

/-- `Lexer::tokenize`: scan all tokens and append the `END_OF_FILE`
sentinel. -/
def tokenize (source : String) : List Token :=
  tokenizeLoop (source.data.length + 1) source.data ++ [{ type := .END_OF_FILE, value := "" }]

/-! ### Syntax tree (`AST.h`)

Expression and statement nodes, without their claim-irrelevant
`SourceLocation` fields.  `BinaryExpression`, `UnaryExpression`,
`AssignmentExpression`, `FunctionCallExpression` and `VariableExpression`
hard-code `DataType::UNKNOWN` in their `type()` accessor, so only
`LiteralExpression` stores a type. -/

mutual
inductive Expr where
  | literal (value : String) (type : DataType)
  | varRef (name : String)
  | binary (left : Expr) (op : OperatorType) (right : Expr)
  | unary (op : OperatorType) (operand : Expr)
  | assignment (name : String) (value : Expr)
  | call (name : String) (args : List Expr)

inductive Stmt where
  | block (stmts : List Stmt)
  | varDecl (name : String) (type : DataType) (initializer : Option Expr)
  | funcDecl (name : String) (returnType : DataType)
      (params : List (String × DataType)) (body : Stmt)
  | ifStmt (condition : Expr) (thenBranch : Stmt) (elseBranch : Option Stmt)
  | whileStmt (condition : Expr) (body : Stmt)
  | returnStmt (value : Option Expr)
  | exprStmt (expression : Expr)
end

/-- `Program` from `AST.h`: the top-level ordered statement list. -/
abbrev Program := List Stmt

/-! ### Parser (`Parser.cpp`)

The C++ parser keeps a cursor `current_` into the token list; it is
modelled by the unread suffix.  `Parser::error` always throws a
`CompilerError`, and the `catch` handler inside `Parser::parse` calls
`error` again, so the first syntax error propagates out of `parse`:
parsing is modelled in `Except String`.  The recursion of the
recursive-descent functions is fuelled; every cycle through the grammar
either consumes a token or throws, so the generous fuel supplied by
`parse` below never runs out. -/

/-- `Parser::isAtEnd`: the cursor sits on `END_OF_FILE` (the token list
produced by `tokenize` always ends with it, so the empty suffix is
unreachable and also counts as the end). -/
def isAtEnd : List Token → Bool
  | [] => true
  | t :: _ => t.type = .END_OF_FILE

/-- `Parser::check`: false at the end of input, else compare the cursor
token's type. -/
def check (ty : TokenType) (ts : List Token) : Bool :=
  if isAtEnd ts then false
  else match ts with
    | t :: _ => t.type = ty
    | [] => false

/-- `Parser::match` (named `matchTok` because `match` is reserved):
consume and return the cursor token when `check` succeeds. -/
def matchTok (ty : TokenType) (ts : List Token) : Option (Token × List Token) :=
  if check ty ts then
    match ts with
    | t :: rest => some (t, rest)
    | [] => none
  else none

/-- `Parser::consume`: like `matchTok`, but a failure throws the given
message. -/
def consume (ty : TokenType) (msg : String) (ts : List Token) :
    Except String (Token × List Token) :=
  match matchTok ty ts with
  | some r => .ok r
  | none => .error msg

/-- `Parser::parseType`: a type position accepts an identifier from the
closed set; an unknown name or a non-identifier throws. -/
def parseType (ts : List Token) : Except String (DataType × List Token) :=
  match matchTok .IDENTIFIER ts with
  | some (t, ts1) =>
    if t.value = "int" then .ok (.INT, ts1)
    else if t.value = "float" then .ok (.FLOAT, ts1)
    else if t.value = "bool" then .ok (.BOOL, ts1)
    else if t.value = "string" then .ok (.STRING, ts1)
    else if t.value = "void" then .ok (.VOID, ts1)
    else .error ("Unknown type: " ++ t.value)
  | none => .error "Expect type name."

mutual

/-- `Parser::parseExpression`. -/
def parseExpression : Nat → List Token → Except String (Expr × List Token)
  | 0, _ => .error "out of fuel"
  | fuel + 1, ts => parseAssignment fuel ts

/-- `Parser::parseAssignment`: right-associative; only a bare identifier
on the left is a valid assignment target. -/
def parseAssignment : Nat → List Token → Except String (Expr × List Token)
  | 0, _ => .error "out of fuel"
  | fuel + 1, ts => do
    let (expr, ts1) ← parseLogicalOr fuel ts
    match matchTok .ASSIGN ts1 with
    | some (_, ts2) => do
      let (value, ts3) ← parseAssignment fuel ts2
      match expr with
      | .varRef name => pure (.assignment name value, ts3)
      | _ => .error "Invalid assignment target"
    | none => pure (expr, ts1)

/-- `Parser::parseLogicalOr`. -/
def parseLogicalOr : Nat → List Token → Except String (Expr × List Token)
  | 0, _ => .error "out of fuel"
  | fuel + 1, ts => do
    let (expr, ts1) ← parseLogicalAnd fuel ts
    parseLogicalOrLoop fuel expr ts1

/-- The `while (match(OR))` loop of `Parser::parseLogicalOr`. -/
def parseLogicalOrLoop : Nat → Expr → List Token → Except String (Expr × List Token)
  | 0, _, _ => .error "out of fuel"
  | fuel + 1, expr, ts =>
    match matchTok .OR ts with
    | some (_, ts1) => do
      let (right, ts2) ← parseLogicalAnd fuel ts1
      parseLogicalOrLoop fuel (.binary expr .OR right) ts2
    | none => pure (expr, ts)

/-- `Parser::parseLogicalAnd`. -/
def parseLogicalAnd : Nat → List Token → Except String (Expr × List Token)
  | 0, _ => .error "out of fuel"
  | fuel + 1, ts => do
    let (expr, ts1) ← parseEquality fuel ts
    parseLogicalAndLoop fuel expr ts1

/-- The `while (match(AND))` loop of `Parser::parseLogicalAnd`. -/
def parseLogicalAndLoop : Nat → Expr → List Token → Except String (Expr × List Token)
  | 0, _, _ => .error "out of fuel"
  | fuel + 1, expr, ts =>
    match matchTok .AND ts with
    | some (_, ts1) => do
      let (right, ts2) ← parseEquality fuel ts1
      parseLogicalAndLoop fuel (.binary expr .AND right) ts2
    | none => pure (expr, ts)

/-- `Parser::parseEquality`. -/
def parseEquality : Nat → List Token → Except String (Expr × List Token)
  | 0, _ => .error "out of fuel"
  | fuel + 1, ts => do
    let (expr, ts1) ← parseComparison fuel ts
    parseEqualityLoop fuel expr ts1

/-- The `while (match(NOT_EQUAL) || match(EQUAL))` loop of
`Parser::parseEquality`. -/
def parseEqualityLoop : Nat → Expr → List Token → Except String (Expr × List Token)
  | 0, _, _ => .error "out of fuel"
  | fuel + 1, expr, ts =>
    match matchTok .NOT_EQUAL ts with
    | some (_, ts1) => do
      let (right, ts2) ← parseComparison fuel ts1
      parseEqualityLoop fuel (.binary expr .NOT_EQUAL right) ts2
    | none =>
      match matchTok .EQUAL ts with
      | some (_, ts1) => do
        let (right, ts2) ← parseComparison fuel ts1
        parseEqualityLoop fuel (.binary expr .EQUAL right) ts2
      | none => pure (expr, ts)

/-- `Parser::parseComparison`. -/
def parseComparison : Nat → List Token → Except String (Expr × List Token)
  | 0, _ => .error "out of fuel"
  | fuel + 1, ts => do
    let (expr, ts1) ← parseTerm fuel ts
    parseComparisonLoop fuel expr ts1

/-- The comparison-operator loop of `Parser::parseComparison`
(`>`, `>=`, `<`, `<=`, tried in that order). -/
def parseComparisonLoop : Nat → Expr → List Token → Except String (Expr × List Token)
  | 0, _, _ => .error "out of fuel"
  | fuel + 1, expr, ts =>
    match matchTok .GREATER ts with
    | some (_, ts1) => do
      let (right, ts2) ← parseTerm fuel ts1
      parseComparisonLoop fuel (.binary expr .GREATER right) ts2
    | none =>
      match matchTok .GREATER_EQUAL ts with
      | some (_, ts1) => do
        let (right, ts2) ← parseTerm fuel ts1
        parseComparisonLoop fuel (.binary expr .GREATER_EQUAL right) ts2
      | none =>
        match matchTok .LESS ts with
        | some (_, ts1) => do
          let (right, ts2) ← parseTerm fuel ts1
          parseComparisonLoop fuel (.binary expr .LESS right) ts2
        | none =>
          match matchTok .LESS_EQUAL ts with
          | some (_, ts1) => do
            let (right, ts2) ← parseTerm fuel ts1
            parseComparisonLoop fuel (.binary expr .LESS_EQUAL right) ts2
          | none => pure (expr, ts)

/-- `Parser::parseTerm`. -/
def parseTerm : Nat → List Token → Except String (Expr × List Token)
  | 0, _ => .error "out of fuel"
  | fuel + 1, ts => do
    let (expr, ts1) ← parseFactor fuel ts
    parseTermLoop fuel expr ts1

/-- The `while (match(MINUS) || match(PLUS))` loop of
`Parser::parseTerm`. -/
def parseTermLoop : Nat → Expr → List Token → Except String (Expr × List Token)
  | 0, _, _ => .error "out of fuel"
  | fuel + 1, expr, ts =>
    match matchTok .MINUS ts with
    | some (_, ts1) => do
      let (right, ts2) ← parseFactor fuel ts1
      parseTermLoop fuel (.binary expr .SUBTRACT right) ts2
    | none =>
      match matchTok .PLUS ts with
      | some (_, ts1) => do
        let (right, ts2) ← parseFactor fuel ts1
        parseTermLoop fuel (.binary expr .ADD right) ts2
      | none => pure (expr, ts)

/-- `Parser::parseFactor`. -/
def parseFactor : Nat → List Token → Except String (Expr × List Token)
  | 0, _ => .error "out of fuel"
  | fuel + 1, ts => do
    let (expr, ts1) ← parseUnary fuel ts
    parseFactorLoop fuel expr ts1

/-- The `while (match(SLASH) || match(MULTIPLY) || match(MODULO))` loop
of `Parser::parseFactor`.  Note: it tests `SLASH`, which the lexer never
produces — `/` lexes as `DIVIDE`. -/
def parseFactorLoop : Nat → Expr → List Token → Except String (Expr × List Token)
  | 0, _, _ => .error "out of fuel"
  | fuel + 1, expr, ts =>
    match matchTok .SLASH ts with
    | some (_, ts1) => do
      let (right, ts2) ← parseUnary fuel ts1
      parseFactorLoop fuel (.binary expr .DIVIDE right) ts2
    | none =>
      match matchTok .MULTIPLY ts with
      | some (_, ts1) => do
        let (right, ts2) ← parseUnary fuel ts1
        parseFactorLoop fuel (.binary expr .MULTIPLY right) ts2
      | none =>
        match matchTok .MODULO ts with
        | some (_, ts1) => do
          let (right, ts2) ← parseUnary fuel ts1
          parseFactorLoop fuel (.binary expr .MODULO right) ts2
        | none => pure (expr, ts)

/-- `Parser::parseUnary`: prefix `!` and `-`, right-associative by
recursion. -/
def parseUnary : Nat → List Token → Except String (Expr × List Token)
  | 0, _ => .error "out of fuel"
  | fuel + 1, ts =>
    match matchTok .NOT ts with
    | some (_, ts1) => do
      let (right, ts2) ← parseUnary fuel ts1
      pure (.unary .NOT right, ts2)
    | none =>
      match matchTok .MINUS ts with
      | some (_, ts1) => do
        let (right, ts2) ← parseUnary fuel ts1
        pure (.unary .SUBTRACT right, ts2)
      | none => parsePrimary fuel ts

/-- `Parser::parsePrimary`: literals, identifiers and parenthesized
expressions; anything else throws "Expect expression.". -/
def parsePrimary : Nat → List Token → Except String (Expr × List Token)
  | 0, _ => .error "out of fuel"
  | fuel + 1, ts =>
    if let some (_, ts1) := matchTok .FALSE ts then
      pure (.literal "false" .BOOL, ts1)
    else if let some (_, ts1) := matchTok .TRUE ts then
      pure (.literal "true" .BOOL, ts1)
    else if let some (_, ts1) := matchTok .NULL_LITERAL ts then
      pure (.literal "null" .UNKNOWN, ts1)
    else if let some (t, ts1) := matchTok .INTEGER ts then
      pure (.literal t.value .INT, ts1)
    else if let some (t, ts1) := matchTok .FLOAT ts then
      pure (.literal t.value .FLOAT, ts1)
    else if let some (t, ts1) := matchTok .STRING ts then
      pure (.literal t.value .STRING, ts1)
    else if let some (t, ts1) := matchTok .IDENTIFIER ts then
      pure (.varRef t.value, ts1)
    else if let some (_, ts1) := matchTok .LEFT_PAREN ts then do
      let (expr, ts2) ← parseExpression fuel ts1
      let (_, ts3) ← consume .RIGHT_PAREN "Expect ')' after expression." ts2
      pure (expr, ts3)
    else
      .error "Expect expression."

/-- `Parser::parseStatement`: dispatch on the leading token. -/
def parseStatement : Nat → List Token → Except String (Stmt × List Token)
  | 0, _ => .error "out of fuel"
  | fuel + 1, ts =>
    if let some (_, ts1) := matchTok .IF ts then parseIfStatement fuel ts1
    else if let some (_, ts1) := matchTok .WHILE ts then parseWhileStatement fuel ts1
    else if let some (_, ts1) := matchTok .RETURN ts then parseReturnStatement fuel ts1
    else if let some (_, ts1) := matchTok .LEFT_BRACE ts then parseBlockStatement fuel ts1
    else if let some (_, ts1) := matchTok .VAR ts then parseVariableDeclaration fuel ts1
    else if let some (_, ts1) := matchTok .LET ts then parseVariableDeclaration fuel ts1
    else if let some (_, ts1) := matchTok .CONST ts then parseVariableDeclaration fuel ts1
    else if let some (_, ts1) := matchTok .FUNCTION ts then parseFunctionDeclaration fuel ts1
    else parseExpressionStatement fuel ts

/-- `Parser::parseExpressionStatement`. -/
def parseExpressionStatement : Nat → List Token → Except String (Stmt × List Token)
  | 0, _ => .error "out of fuel"
  | fuel + 1, ts => do
    let (expr, ts1) ← parseExpression fuel ts
    let (_, ts2) ← consume .SEMICOLON "Expect ';' after expression." ts1
    pure (.exprStmt expr, ts2)

/-- `Parser::parseBlockStatement`, entered after the opening brace. -/
def parseBlockStatement : Nat → List Token → Except String (Stmt × List Token)
  | 0, _ => .error "out of fuel"
  | fuel + 1, ts => do
    let (stmts, ts1) ← parseBlockLoop fuel [] ts
    let (_, ts2) ← consume .RIGHT_BRACE "Expect '\x7d' after block." ts1
    pure (.block stmts, ts2)

/-- The statement loop of `Parser::parseBlockStatement`:
`while (!check(RIGHT_BRACE) && !isAtEnd())`. -/
def parseBlockLoop : Nat → List Stmt → List Token → Except String (List Stmt × List Token)
  | 0, _, _ => .error "out of fuel"
  | fuel + 1, acc, ts =>
    if !check .RIGHT_BRACE ts && !isAtEnd ts then do
      let (s, ts1) ← parseStatement fuel ts
      parseBlockLoop fuel (acc ++ [s]) ts1
    else pure (acc, ts)

/-- `Parser::parseIfStatement`, entered after the `if` keyword. -/
def parseIfStatement : Nat → List Token → Except String (Stmt × List Token)
  | 0, _ => .error "out of fuel"
  | fuel + 1, ts => do
    let (_, ts1) ← consume .LEFT_PAREN "Expect '(' after 'if'." ts
    let (condition, ts2) ← parseExpression fuel ts1
    let (_, ts3) ← consume .RIGHT_PAREN "Expect ')' after if condition." ts2
    let (thenBranch, ts4) ← parseStatement fuel ts3
    match matchTok .ELSE ts4 with
    | some (_, ts5) => do
      let (elseBranch, ts6) ← parseStatement fuel ts5
      pure (.ifStmt condition thenBranch (some elseBranch), ts6)
    | none => pure (.ifStmt condition thenBranch none, ts4)

/-- `Parser::parseWhileStatement`, entered after the `while` keyword. -/
def parseWhileStatement : Nat → List Token → Except String (Stmt × List Token)
  | 0, _ => .error "out of fuel"
  | fuel + 1, ts => do
    let (_, ts1) ← consume .LEFT_PAREN "Expect '(' after 'while'." ts
    let (condition, ts2) ← parseExpression fuel ts1
    let (_, ts3) ← consume .RIGHT_PAREN "Expect ')' after condition." ts2
    let (body, ts4) ← parseStatement fuel ts3
    pure (.whileStmt condition body, ts4)

/-- `Parser::parseReturnStatement`, entered after the `return` keyword. -/
def parseReturnStatement : Nat → List Token → Except String (Stmt × List Token)
  | 0, _ => .error "out of fuel"
  | fuel + 1, ts => do
    if !check .SEMICOLON ts then do
      let (value, ts1) ← parseExpression fuel ts
      let (_, ts2) ← consume .SEMICOLON "Expect ';' after return value." ts1
      pure (.returnStmt (some value), ts2)
    else do
      let (_, ts1) ← consume .SEMICOLON "Expect ';' after return value." ts
      pure (.returnStmt none, ts1)

/-- `Parser::parseVariableDeclaration`, entered after `var`/`let`/`const`.
It tests `TokenType::COLON`, which the lexer never produces, so the type
annotation branch is dead on lexed input. -/
def parseVariableDeclaration : Nat → List Token → Except String (Stmt × List Token)
  | 0, _ => .error "out of fuel"
  | fuel + 1, ts => do
    let (name, ts1) ← consume .IDENTIFIER "Expect variable name." ts
    let (ty, ts2) ←
      match matchTok .COLON ts1 with
      | some (_, tsA) => parseType tsA
      | none => pure (DataType.UNKNOWN, ts1)
    let (initializer, ts3) ←
      match matchTok .ASSIGN ts2 with
      | some (_, tsB) => do
        let (e, tsC) ← parseExpression fuel tsB
        pure (some e, tsC)
      | none => pure (none, ts2)
    let (_, ts4) ← consume .SEMICOLON "Expect ';' after variable declaration." ts3
    pure (.varDecl name.value ty initializer, ts4)

/-- `Parser::parseFunctionDeclaration`, entered after the `function`
keyword. -/
def parseFunctionDeclaration : Nat → List Token → Except String (Stmt × List Token)
  | 0, _ => .error "out of fuel"
  | fuel + 1, ts => do
    let (name, ts1) ← consume .IDENTIFIER "Expect function name." ts
    let (_, ts2) ← consume .LEFT_PAREN "Expect '(' after function name." ts1
    let (params, ts3) ← parseParameters fuel ts2
    let (_, ts4) ← consume .RIGHT_PAREN "Expect ')' after parameters." ts3
    let (returnType, ts5) ←
      match matchTok .COLON ts4 with
      | some (_, tsA) => parseType tsA
      | none => pure (DataType.VOID, ts4)
    let (_, ts6) ← consume .LEFT_BRACE "Expect '\x7b' before function body." ts5
    let (body, ts7) ← parseBlockStatement fuel ts6
    pure (.funcDecl name.value returnType params body, ts7)

/-- `Parser::parseParameters`. -/
def parseParameters : Nat → List Token →
    Except String (List (String × DataType) × List Token)
  | 0, _ => .error "out of fuel"
  | fuel + 1, ts =>
    if !check .RIGHT_PAREN ts then parseParametersLoop fuel [] ts
    else pure ([], ts)

/-- The `do … while (match(COMMA))` loop of `Parser::parseParameters`.
Each parameter requires a `COLON` token, which the lexer never
produces. -/
def parseParametersLoop : Nat → List (String × DataType) → List Token →
    Except String (List (String × DataType) × List Token)
  | 0, _, _ => .error "out of fuel"
  | fuel + 1, acc, ts => do
    let (name, ts1) ← consume .IDENTIFIER "Expect parameter name." ts
    let (_, ts2) ← consume .COLON "Expect ':' after parameter name." ts1
    let (ty, ts3) ← parseType ts2
    let acc1 := acc ++ [(name.value, ty)]
    match matchTok .COMMA ts3 with
    | some (_, ts4) => parseParametersLoop fuel acc1 ts4
    | none => pure (acc1, ts3)

end

/-- The `while (!isAtEnd())` loop of `Parser::parse`.  The `catch`
handler calls `Parser::error`, which rethrows, so the first
`CompilerError` escapes: the `Except` bind models exactly that. -/
def parseLoop : Nat → List Stmt → List Token → Except String Program
  | 0, _, _ => .error "out of fuel"
  | fuel + 1, acc, ts =>
    if isAtEnd ts then pure acc
    else do
      let (s, ts1) ← parseStatement fuel ts
      parseLoop fuel (acc ++ [s]) ts1

/-- `Parser::parse`: the fuel bound is generous — every recursive-descent
cycle consumes a token or throws, so it is never exhausted. -/
def parse (ts : List Token) : Except String Program :=
  parseLoop (ts.length * 100 + 100) [] ts

/-! ### Symbol table (`Semantic.cpp`, `Semantic.h`) -/

/-- `dataTypeToString` from `Utils.cpp`. -/
def dataTypeToString : DataType → String
  | .VOID => "void"
  | .INT => "int"
  | .FLOAT => "float"
  | .BOOL => "bool"
  | .STRING => "string"
  | .ARRAY => "array"
  | .FUNCTION => "function"
  | .UNKNOWN => "unknown"

/-- `Symbol` from `Semantic.h`, without its claim-irrelevant
`SourceLocation`.  The C++ constructor leaves `returnType`
uninitialized; it is given the default `VOID` here, and every use site
that reads it (function symbols) first sets it explicitly. -/
structure Symbol where
  name : String
  type : DataType
  isFunction : Bool
  isConstant : Bool := false
  parameterTypes : List DataType := []
  returnType : DataType := .VOID
deriving DecidableEq, Repr

/-- One scope: an `unordered_map` from name to `Symbol`, modelled as an
association list observed through lookup. -/
abbrev Scope := List (String × Symbol)

/-- `SymbolTable`: the stack of scopes (`scopes_`).  The head of the
list is the innermost scope (`scopes_.back()`). -/
abbrev SymbolTable := List Scope

/-- Lookup in a single scope (`unordered_map::find`). -/
def scopeFind (s : Scope) (name : String) : Option Symbol :=
  match s.find? (fun p => p.1 = name) with
  | some p => some p.2
  | none => none

/-- `SymbolTable::enterScope`: push an empty scope. -/
def SymbolTable.enterScope (t : SymbolTable) : SymbolTable :=
  [] :: t

/-- `SymbolTable::exitScope`: pop the innermost scope, but never the
global one. -/
def SymbolTable.exitScope (t : SymbolTable) : SymbolTable :=
  if t.length > 1 then t.tail else t

/-- `SymbolTable::lookupCurrentScope`. -/
def SymbolTable.lookupCurrentScope (t : SymbolTable) (name : String) : Option Symbol :=
  match t with
  | s :: _ => scopeFind s name
  | [] => none

/-- `SymbolTable::lookup`: innermost scope first. -/
def SymbolTable.lookup : SymbolTable → String → Option Symbol
  | [], _ => none
  | s :: rest, name =>
    match scopeFind s name with
    | some sym => some sym
    | none => SymbolTable.lookup rest name

/-- `SymbolTable::insert`: reject a name already present in the current
scope, else add it there.  (The empty-stack case is unreachable: the
table always holds at least the global scope.) -/
def SymbolTable.insert (t : SymbolTable) (name : String) (sym : Symbol) :
    Bool × SymbolTable :=
  if (t.lookupCurrentScope name).isSome then (false, t)
  else
    match t with
    | s :: rest => (true, ((name, sym) :: s) :: rest)
    | [] => (true, [])

/-- `BuiltinFunctions::registerBuiltins`: `print`, `input` and `sqrt`,
inserted into the global scope with the signatures from
`Semantic.cpp`. -/
def registerBuiltins (t : SymbolTable) : SymbolTable :=
  let printSymbol : Symbol :=
    { name := "print", type := .FUNCTION, isFunction := true,
      returnType := .VOID, parameterTypes := [.STRING] }
  let t1 := (t.insert "print" printSymbol).2
  let inputSymbol : Symbol :=
    { name := "input", type := .FUNCTION, isFunction := true,
      returnType := .STRING, parameterTypes := [] }
  let t2 := (t1.insert "input" inputSymbol).2
  let sqrtSymbol : Symbol :=
    { name := "sqrt", type := .FUNCTION, isFunction := true,
      returnType := .FLOAT, parameterTypes := [.FLOAT] }
  (t2.insert "sqrt" sqrtSymbol).2

/-! ### Type checker and semantic analyzer (`Semantic.cpp`) -/

/-- `TypeChecker::isCompatible`. -/
def isCompatible (fromTy toTy : DataType) : Bool :=
  if fromTy = toTy then true
  else if fromTy = .UNKNOWN || toTy = .UNKNOWN then true
  else if fromTy = .INT && toTy = .FLOAT then true
  else if fromTy = .FLOAT && toTy = .INT then true
  else false

/-- `TypeChecker::getResultType`. -/
def getResultType (op : OperatorType) (left right : DataType) : DataType :=
  match op with
  | .ADD | .SUBTRACT | .MULTIPLY | .DIVIDE | .MODULO =>
    if left = .INT && right = .INT then .INT
    else if (left = .INT || left = .FLOAT) && (right = .INT || right = .FLOAT) then
      if left = .FLOAT || right = .FLOAT then .FLOAT else .INT
    else .UNKNOWN
  | .EQUAL | .NOT_EQUAL | .LESS | .LESS_EQUAL | .GREATER | .GREATER_EQUAL => .BOOL
  | .AND | .OR =>
    if left = .BOOL && right = .BOOL then .BOOL else .UNKNOWN
  | _ => .UNKNOWN

/-- `TypeChecker::getUnaryResultType`. -/
def getUnaryResultType (op : OperatorType) (operand : DataType) : DataType :=
  match op with
  | .SUBTRACT => if operand = .INT || operand = .FLOAT then operand else .UNKNOWN
  | .NOT => if operand = .BOOL then .BOOL else .UNKNOWN
  | _ => .UNKNOWN

/-- The state of a `SemanticAnalyzer` run: its error list (held by the
embedded `TypeChecker`, which reports with the location prefix dropped),
its scope stack, and the traversal flags.  `currentExpressionType_` is
modelled as the return value of `checkExpression`, which is exact
because every expression visitor assigns it on every path. -/
structure AnalyzerState where
  errors : List String
  symbolTable : SymbolTable
  inLoop : Bool
  inFunction : Bool
  currentFunctionReturnType : DataType
deriving DecidableEq, Repr

/-- `TypeChecker::reportError` (message only; locations are dropped). -/
def reportError (st : AnalyzerState) (msg : String) : AnalyzerState :=
  { st with errors := st.errors ++ [msg] }

/-- The freshly constructed `SemanticAnalyzer`: empty error list, the
global scope pre-populated with built-ins, and the initial flags. -/
def initialAnalyzerState : AnalyzerState :=
  { errors := []
    symbolTable := registerBuiltins [[]]
    inLoop := false
    inFunction := false
    currentFunctionReturnType := .VOID }

mutual

/-- `SemanticAnalyzer::checkExpression` / the expression visitors: the
resolved type together with the updated analyzer state. -/
def checkExpression (st : AnalyzerState) : Expr → DataType × AnalyzerState
  | .literal _ ty => (ty, st)
  | .varRef name =>
    match st.symbolTable.lookup name with
    | none => (.UNKNOWN, reportError st ("Undefined variable: " ++ name))
    | some sym => (sym.type, st)
  | .binary l op r =>
    let (leftType, st1) := checkExpression st l
    let (rightType, st2) := checkExpression st1 r
    let ty := getResultType op leftType rightType
    if ty = .UNKNOWN then
      (ty, reportError st2 ("Invalid operation between types " ++
        dataTypeToString leftType ++ " and " ++ dataTypeToString rightType))
    else (ty, st2)
  | .unary op e =>
    let (operandType, st1) := checkExpression st e
    let ty := getUnaryResultType op operandType
    if ty = .UNKNOWN then
      (ty, reportError st1 ("Invalid unary operation on type " ++
        dataTypeToString operandType))
    else (ty, st1)
  | .assignment name value =>
    let (valueType, st1) := checkExpression st value
    match st1.symbolTable.lookup name with
    | none => (.UNKNOWN, reportError st1 ("Undefined variable: " ++ name))
    | some sym =>
      if !isCompatible valueType sym.type then
        (sym.type, reportError st1 ("Cannot assign " ++ dataTypeToString valueType ++
          " to variable of type " ++ dataTypeToString sym.type))
      else (sym.type, st1)
  | .call name args =>
    match st.symbolTable.lookup name with
    | none => (.UNKNOWN, reportError st ("Undefined function: " ++ name))
    | some sym =>
      if !sym.isFunction then
        (.UNKNOWN, reportError st ("Undefined function: " ++ name))
      else if args.length ≠ sym.parameterTypes.length then
        (.UNKNOWN, reportError st ("Function " ++ name ++ " expects " ++
          toString sym.parameterTypes.length ++ " arguments, got " ++
          toString args.length))
      else
        (sym.returnType, checkCallArgs st 1 args sym.parameterTypes)

/-- The argument loop of `visitFunctionCallExpression` (argument numbers
start at 1 in the message; the two lists have equal length because the
arity was checked first, so the second base case is unreachable). -/
def checkCallArgs (st : AnalyzerState) (i : Nat) :
    List Expr → List DataType → AnalyzerState
  | [], _ => st
  | _ :: _, [] => st
  | a :: rest, pty :: prest =>
    let (argType, st1) := checkExpression st a
    let st2 :=
      if !isCompatible argType pty then
        reportError st1 ("Argument " ++ toString i ++ " type mismatch")
      else st1
    checkCallArgs st2 (i + 1) rest prest

end

/-- The parameter-insertion loop of `visitFunctionDeclaration` (the
`insert` result is ignored there). -/
def insertParams (st : AnalyzerState) : List (String × DataType) → AnalyzerState
  | [] => st
  | (pname, pty) :: rest =>
    let paramSym : Symbol := { name := pname, type := pty, isFunction := false }
    insertParams { st with symbolTable := (st.symbolTable.insert pname paramSym).2 } rest

mutual

/-- `SemanticAnalyzer::checkStatement` / the statement visitors. -/
def checkStatement (st : AnalyzerState) : Stmt → AnalyzerState
  | .block stmts =>
    let st1 := { st with symbolTable := st.symbolTable.enterScope }
    let st2 := checkStatements st1 stmts
    { st2 with symbolTable := st2.symbolTable.exitScope }
  | .varDecl name declared initializer =>
    let (initializerType, st1) :=
      match initializer with
      | some e => checkExpression st e
      | none => (DataType.UNKNOWN, st)
    let (declaredType, st2) :=
      if declared = .UNKNOWN then (initializerType, st1)
      else if initializerType ≠ .UNKNOWN && !isCompatible initializerType declared then
        (declared, reportError st1 ("Cannot initialize " ++ dataTypeToString declared ++
          " with " ++ dataTypeToString initializerType))
      else (declared, st1)
    let sym : Symbol := { name := name, type := declaredType, isFunction := false }
    let (ok, table) := st2.symbolTable.insert name sym
    let st3 := { st2 with symbolTable := table }
    if !ok then reportError st3 ("Variable already declared: " ++ name) else st3
  | .funcDecl name returnType params body =>
    let sym : Symbol :=
      { name := name, type := returnType, isFunction := true,
        returnType := returnType, parameterTypes := params.map (·.2) }
    let (ok, table) := st.symbolTable.insert name sym
    let st1 := { st with symbolTable := table }
    if !ok then reportError st1 ("Function already declared: " ++ name)
    else
      let st2 := { st1 with symbolTable := st1.symbolTable.enterScope }
      let wasInFunction := st2.inFunction
      let wasReturnType := st2.currentFunctionReturnType
      let st3 := { st2 with inFunction := true, currentFunctionReturnType := returnType }
      let st4 := insertParams st3 params
      let st5 := checkStatement st4 body
      let st6 := { st5 with inFunction := wasInFunction,
                            currentFunctionReturnType := wasReturnType }
      { st6 with symbolTable := st6.symbolTable.exitScope }
  | .ifStmt condition thenBranch elseBranch =>
    let (conditionType, st1) := checkExpression st condition
    let st2 :=
      if conditionType ≠ .BOOL then reportError st1 "If condition must be boolean"
      else st1
    let st3 := checkStatement st2 thenBranch
    match elseBranch with
    | some e => checkStatement st3 e
    | none => st3
  | .whileStmt condition body =>
    let (conditionType, st1) := checkExpression st condition
    let st2 :=
      if conditionType ≠ .BOOL then reportError st1 "While condition must be boolean"
      else st1
    let wasInLoop := st2.inLoop
    let st3 := checkStatement { st2 with inLoop := true } body
    { st3 with inLoop := wasInLoop }
  | .returnStmt value =>
    if !st.inFunction then reportError st "Return statement outside function"
    else
      let (returnType, st1) :=
        match value with
        | some e => checkExpression st e
        | none => (DataType.VOID, st)
      if !isCompatible returnType st.currentFunctionReturnType then
        reportError st1 "Return type mismatch"
      else st1
  | .exprStmt e => (checkExpression st e).2

/-- The statement loop shared by `visitBlockStatement` and
`visitProgram`. -/
def checkStatements (st : AnalyzerState) : List Stmt → AnalyzerState
  | [] => st
  | s :: rest => checkStatements (checkStatement st s) rest

end

/-- `SemanticAnalyzer::analyze`: walk the program from the fresh state;
success is an empty error list. -/
def analyze (program : Program) : Bool × AnalyzerState :=
  let st := checkStatements initialAnalyzerState program
  (st.errors.isEmpty, st)

/-! ### IR lowering (`CodeGen.cpp`)

The LLVM objects are modelled at the granularity the claims need: a
module is a list of declared functions and a flat list of basic blocks
(each tagged with its owning function, in creation order); the
`IRBuilder` insertion point is the identifier of a block, and emission
appends to that block unconditionally — exactly like
`IRBuilder::CreateRet` and friends, which insert at the current
insertion point whether or not the block already ends in a
terminator. -/

/-- The IR-level types produced by `LLVMCodeGenerator::getLLVMType`. -/
inductive LType where
  | void | i32 | double | i1 | ptr
deriving DecidableEq, Repr

/-- `LLVMCodeGenerator::getLLVMType`. -/
def getLLVMType : DataType → LType
  | .VOID => .void
  | .INT => .i32
  | .FLOAT => .double
  | .BOOL => .i1
  | .STRING => .ptr
  | .ARRAY => .ptr
  | .FUNCTION => .ptr
  | .UNKNOWN => .i32

/-- Digit-run accumulator for `stoll`. -/
def stollDigits : List Char → Nat → Nat
  | [], acc => acc
  | c :: rest, acc => stollDigits rest (acc * 10 + (c.toNat - 48))

/-- `std::stoll` on the lexemes reaching `visitLiteralExpression` with
type `INT`: an optional minus sign followed by a digit run (the lexer's
INTEGER lexemes are pure digit runs, and the parser keeps `-` as a
unary operator, so the sign case never arises from lexed input). -/
def stoll (s : String) : Int :=
  match s.data with
  | '-' :: rest => -(stollDigits rest 0 : Int)
  | l => (stollDigits l 0 : Int)

/-- An LLVM value: constants (which emit no instruction), global string
pointers, formal arguments, and instruction results.  Floating-point
constants keep their lexeme (`std::stod` is claim-irrelevant).  Each
value carries its IR type so that `isIntegerTy` dispatch can be
modelled. -/
inductive Value where
  | constInt (ty : LType) (n : Int)
  | constFP (lexeme : String)
  | globalStr (s : String)
  | arg (fn : String) (i : Nat) (ty : LType)
  | instr (id : Nat) (ty : LType)
deriving DecidableEq, Repr

/-- `llvm::Value::getType` of the modelled values. -/
def Value.lty : Value → LType
  | .constInt ty _ => ty
  | .constFP _ => .double
  | .globalStr _ => .ptr
  | .arg _ _ ty => ty
  | .instr _ ty => ty

/-- `Type::isIntegerTy`. -/
def Value.isIntegerTy (v : Value) : Bool :=
  v.lty = .i32 || v.lty = .i1

/-- The instructions emitted by `LLVMCodeGenerator` (identifiers number
the value-producing ones; block targets are block identifiers). -/
inductive Instr where
  | alloca (id : Nat) (ty : LType) (name : String)
  | store (value : Value) (slot : Value)
  | load (id : Nat) (ty : LType) (slot : Value)
  | binop (id : Nat) (op : String) (lhs rhs : Value)
  | unop (id : Nat) (op : String) (operand : Value)
  | call (id : Nat) (callee : String) (args : List Value)
  | br (target : Nat)
  | condBr (cond : Value) (thenTarget elseTarget : Nat)
  | ret (value : Value)
  | retVoid
deriving DecidableEq, Repr

/-- Terminator instructions (branches and returns). -/
def isTerminator : Instr → Bool
  | .br _ => true
  | .condBr _ _ _ => true
  | .ret _ => true
  | .retVoid => true
  | _ => false

/-- A basic block: its identifier, its name, the function it was created
in, and its instruction list. -/
structure MBlock where
  id : Nat
  name : String
  func : String
  instrs : List Instr
deriving DecidableEq, Repr

/-- `BasicBlock::getTerminator`: the last instruction when it is a
terminator, else null. -/
def MBlock.getTerminator (b : MBlock) : Option Instr :=
  match b.instrs.getLast? with
  | some i => if isTerminator i then some i else none
  | none => none

/-- The state of an `LLVMCodeGenerator`: the module contents, the
builder insertion point, the flat `variables_` name-to-slot map (an
association list whose lookup takes the most recent binding, the
lookup-equivalent of `unordered_map::operator[]` assignment), and the
error flags.  `currentValue_` starts as `nullptr` (`none`) and is
faithfully left stale by visitors that return early. -/
structure CGState where
  blocks : List MBlock
  insertPt : Option Nat
  nextValueId : Nat
  nextBlockId : Nat
  vars : List (String × Value)
  moduleFunctions : List (String × LType × List LType × Bool)
  functions : List String
  breakTargets : List Nat
  continueTargets : List Nat
  currentFunction : Option String
  currentValue : Option Value
  hasErrors : Bool
  errors : List String
deriving DecidableEq, Repr

/-- The freshly constructed `LLVMCodeGenerator`:
`createBuiltinFunctions` pre-declares the variadic `printf`. -/
def initialCGState : CGState :=
  { blocks := []
    insertPt := none
    nextValueId := 0
    nextBlockId := 0
    vars := []
    moduleFunctions := [("printf", .i32, [.ptr], true)]
    functions := []
    breakTargets := []
    continueTargets := []
    currentFunction := none
    currentValue := none
    hasErrors := false
    errors := [] }

/-- `builder_.SetInsertPoint(block)`. -/
def setInsertPt (st : CGState) (p : Option Nat) : CGState :=
  { st with insertPt := p }

/-- The `currentFunction_` assignments in `visitFunctionDeclaration`. -/
def setCurrentFunction (st : CGState) (f : Option String) : CGState :=
  { st with currentFunction := f }

/-- `llvm::Function::Create(...)` plus `functions_[name] = func` in
`visitFunctionDeclaration`: declare the function in the module. -/
def addModuleFunction (st : CGState) (f : String × LType × List LType × Bool) : CGState :=
  { st with moduleFunctions := st.moduleFunctions ++ [f]
            functions := st.functions ++ [f.1] }

/-- The `breakTargets_`/`continueTargets_` pushes on entering a loop. -/
def pushLoopTargets (st : CGState) (brk cont : Nat) : CGState :=
  { st with breakTargets := st.breakTargets ++ [brk]
            continueTargets := st.continueTargets ++ [cont] }

/-- The matching `pop_back` pair on leaving a loop. -/
def popLoopTargets (st : CGState) : CGState :=
  { st with breakTargets := st.breakTargets.dropLast
            continueTargets := st.continueTargets.dropLast }

/-- `LLVMCodeGenerator::reportError` (location prefix dropped). -/
def reportErrorCG (st : CGState) (msg : String) : CGState :=
  { st with hasErrors := true, errors := st.errors ++ [msg] }

/-- Set `currentValue_`. -/
def setCV (st : CGState) (v : Option Value) : CGState :=
  { st with currentValue := v }

/-- `module_->getFunction(name)`. -/
def getModuleFunction (st : CGState) (name : String) :
    Option (String × LType × List LType × Bool) :=
  st.moduleFunctions.find? (fun f => f.1 = name)

/-- `LLVMCodeGenerator::declareVariable` (and the identical
`setVariable`): `variables_[name] = value`. -/
def declareVariable (st : CGState) (name : String) (v : Value) : CGState :=
  { st with vars := (name, v) :: st.vars }

/-- `LLVMCodeGenerator::getVariable`. -/
def getVariable (st : CGState) (name : String) : Option Value :=
  match st.vars.find? (fun p => p.1 = name) with
  | some p => some p.2
  | none => none

/-- The builder's current block (`builder_.GetInsertBlock()`). -/
def getInsertBlock (st : CGState) : Option MBlock :=
  match st.insertPt with
  | some i => st.blocks.find? (fun b => b.id = i)
  | none => none

/-- The function owning the builder's current block
(`GetInsertBlock()->getParent()`); the null-block case is unreachable in
the lowerings considered (the C++ would dereference null). -/
def insertFunc (st : CGState) : String :=
  match getInsertBlock st with
  | some b => b.func
  | none => ""

/-- The terminator of the builder's current block. -/
def insertTerminator (st : CGState) : Option Instr :=
  match getInsertBlock st with
  | some b => b.getTerminator
  | none => none

/-- Emit an instruction at the insertion point: appended to the end of
the block, whether or not the block already ends in a terminator (as
`IRBuilder` does when its insertion point is a block end).  With no
insertion point the C++ would dereference null; the model leaves the
state unchanged (unreachable in the lowerings considered). -/
def emit (st : CGState) (i : Instr) : CGState :=
  match st.insertPt with
  | some pt =>
    { st with blocks := st.blocks.map (fun b =>
        if b.id = pt then { b with instrs := b.instrs ++ [i] } else b) }
  | none => st

/-- Allocate a fresh value identifier. -/
def freshValue (st : CGState) : Nat × CGState :=
  (st.nextValueId, { st with nextValueId := st.nextValueId + 1 })

/-- `BasicBlock::Create(context, name, func)`: a new block appended to
the function (creation order is kept by the flat block list). -/
def newBlock (st : CGState) (name fn : String) : Nat × CGState :=
  (st.nextBlockId,
   { st with
       blocks := st.blocks ++ [{ id := st.nextBlockId, name := name,
                                 func := fn, instrs := [] }]
       nextBlockId := st.nextBlockId + 1 })

/-- `LLVMCodeGenerator::createAlloca`: a temporary builder positioned at
the *beginning* of the entry block of the current function, so each new
alloca is prepended there.  The entry block is the function's first
block in creation order.  The alloca yields a pointer value. -/
def createAlloca (st : CGState) (ty : LType) (name : String) : Value × CGState :=
  let fn := insertFunc st
  let (id, st1) := freshValue st
  let st2 :=
    match st1.blocks.find? (fun b => b.func = fn) with
    | some entry =>
      { st1 with blocks := st1.blocks.map (fun b =>
          if b.id = entry.id then { b with instrs := .alloca id ty name :: b.instrs }
          else b) }
    | none => st1
  (.instr id .ptr, st2)

/-- `LLVMCodeGenerator::generateBinaryOperation`: dispatch on the
operand IR types (integer vs floating point); the default case reports
"Unsupported binary operation" and yields null. -/
def generateBinaryOperation (st : CGState) (left : Value) (op : OperatorType)
    (right : Value) : CGState :=
  let intOp := left.isIntegerTy && right.isIntegerTy
  let emitBin (iname fname : String) (ity fty : LType) : CGState :=
    let (id, st1) := freshValue st
    if intOp then
      setCV (emit st1 (.binop id iname left right)) (some (.instr id ity))
    else
      setCV (emit st1 (.binop id fname left right)) (some (.instr id fty))
  match op with
  | .ADD => emitBin "add" "fadd" left.lty .double
  | .SUBTRACT => emitBin "sub" "fsub" left.lty .double
  | .MULTIPLY => emitBin "mul" "fmul" left.lty .double
  | .DIVIDE => emitBin "sdiv" "fdiv" left.lty .double
  | .EQUAL => emitBin "icmp eq" "fcmp oeq" .i1 .i1
  | .NOT_EQUAL => emitBin "icmp ne" "fcmp one" .i1 .i1
  | .LESS => emitBin "icmp slt" "fcmp olt" .i1 .i1
  | .GREATER => emitBin "icmp sgt" "fcmp ogt" .i1 .i1
  | _ => setCV (reportErrorCG st "Unsupported binary operation") none

/-- `LLVMCodeGenerator::generateUnaryOperation`. -/
def generateUnaryOperation (st : CGState) (op : OperatorType) (operand : Value) :
    CGState :=
  match op with
  | .SUBTRACT =>
    let (id, st1) := freshValue st
    if operand.isIntegerTy then
      setCV (emit st1 (.unop id "neg" operand)) (some (.instr id operand.lty))
    else
      setCV (emit st1 (.unop id "fneg" operand)) (some (.instr id .double))
  | .NOT =>
    let (id, st1) := freshValue st
    setCV (emit st1 (.unop id "not" operand)) (some (.instr id operand.lty))
  | _ => setCV (reportErrorCG st "Unsupported unary operation") none

mutual

/-- `LLVMCodeGenerator::generateExpression` / the expression visitors.
The produced value is `currentValue_` of the returned state; a visitor
that returns early leaves it stale, exactly as the C++ does. -/
def genExpr (st : CGState) : Expr → CGState
  | .literal value ty =>
    match ty with
    | .INT => setCV st (some (.constInt (getLLVMType .INT) (stoll value)))
    | .FLOAT => setCV st (some (.constFP value))
    | .BOOL => setCV st (some (.constInt (getLLVMType .BOOL)
        (if value = "true" then 1 else 0)))
    | .STRING => setCV st (some (.globalStr value))
    | _ => reportErrorCG st "Unsupported literal type"
  | .varRef name =>
    match getVariable st name with
    | none => reportErrorCG st ("Undefined variable: " ++ name)
    | some slot =>
      let (id, st1) := freshValue st
      let st2 := emit st1 (.load id (getLLVMType .UNKNOWN) slot)
      setCV st2 (some (.instr id (getLLVMType .UNKNOWN)))
  | .binary l op r =>
    let stL := genExpr st l
    let left := stL.currentValue
    let stR := genExpr stL r
    let right := stR.currentValue
    match left, right with
    | some lv, some rv => generateBinaryOperation stR lv op rv
    | _, _ => reportErrorCG stR "Failed to generate operands for binary expression"
  | .unary op e =>
    let st1 := genExpr st e
    match st1.currentValue with
    | none => reportErrorCG st1 "Failed to generate operand for unary expression"
    | some v => generateUnaryOperation st1 op v
  | .assignment name value =>
    let st1 := genExpr st value
    match st1.currentValue with
    | none => reportErrorCG st1 "Failed to generate value for assignment"
    | some v =>
      match getVariable st1 name with
      | none => reportErrorCG st1 ("Undefined variable: " ++ name)
      | some slot => setCV (emit st1 (.store v slot)) (some v)
  | .call name args =>
    match getModuleFunction st name with
    | none => reportErrorCG st ("Undefined function: " ++ name)
    | some f =>
      match genCallArgs st args with
      | (none, st1) => st1
      | (some vals, st1) =>
        let (id, st2) := freshValue st1
        let st3 := emit st2 (.call id name vals)
        setCV st3 (some (.instr id f.2.1))

/-- The argument loop of `visitFunctionCallExpression`: a null argument
value reports "Failed to generate function argument" and aborts the
call. -/
def genCallArgs (st : CGState) : List Expr → Option (List Value) × CGState
  | [] => (some [], st)
  | a :: rest =>
    let st1 := genExpr st a
    match st1.currentValue with
    | none => (none, reportErrorCG st1 "Failed to generate function argument")
    | some v =>
      match genCallArgs st1 rest with
      | (some vals, st2) => (some (v :: vals), st2)
      | (none, st2) => (none, st2)

end

/-- The parameter set-up loop of `visitFunctionDeclaration`: for each
formal argument, allocate a slot, store the argument into it, and bind
the name. -/
def genParams (st : CGState) (fn : String) :
    List (String × DataType) → Nat → CGState
  | [], _ => st
  | (pname, pty) :: rest, i =>
    let (slot, st1) := createAlloca st (getLLVMType pty) pname
    let st2 := emit st1 (.store (.arg fn i (getLLVMType pty)) slot)
    let st3 := declareVariable st2 pname slot
    genParams st3 fn rest (i + 1)

mutual

/-- `LLVMCodeGenerator::generateStatement` / the statement visitors. -/
def genStmt (st : CGState) : Stmt → CGState
  | .block stmts => genStmts st stmts
  | .varDecl name ty initializer =>
    let varTy := getLLVMType ty
    let (slot, st1) := createAlloca st varTy name
    let st2 := declareVariable st1 name slot
    match initializer with
    | some e =>
      let st3 := genExpr st2 e
      match st3.currentValue with
      | some v => emit st3 (.store v slot)
      | none => st3
    | none => st2
  | .funcDecl name returnType params body =>
    let paramTys := params.map (fun p => getLLVMType p.2)
    let st1 := addModuleFunction st (name, getLLVMType returnType, paramTys, false)
    let (entryId, st2) := newBlock st1 "entry" name
    let st3 := setInsertPt st2 (some entryId)
    let st4 := genParams st3 name params 0
    let st5 := setCurrentFunction st4 (some name)
    let st6 := genStmt st5 body
    let st7 := setCurrentFunction st6 none
    if returnType = .VOID && (insertTerminator st7).isNone then
      emit st7 .retVoid
    else st7
  | .ifStmt condition thenBranch elseBranch =>
    let st1 := genExpr st condition
    match st1.currentValue with
    | none => reportErrorCG st1 "Failed to generate if condition"
    | some c =>
      let fn := insertFunc st1
      let (thenId, st2) := newBlock st1 "then" fn
      let (elseId, st3) := newBlock st2 "else" fn
      let (mergeId, st4) := newBlock st3 "ifcont" fn
      let st5 := emit st4 (.condBr c thenId elseId)
      let st6 := genStmt (setInsertPt st5 (some thenId)) thenBranch
      let st7 := if (insertTerminator st6).isNone then emit st6 (.br mergeId) else st6
      let st8 := setInsertPt st7 (some elseId)
      let st9 :=
        match elseBranch with
        | some e => genStmt st8 e
        | none => st8
      let st10 := if (insertTerminator st9).isNone then emit st9 (.br mergeId) else st9
      setInsertPt st10 (some mergeId)
  | .whileStmt condition body =>
    let fn := insertFunc st
    let (loopId, st1) := newBlock st "loop" fn
    let (bodyId, st2) := newBlock st1 "while_body" fn
    let (afterId, st3) := newBlock st2 "while_cont" fn
    let st4 := pushLoopTargets st3 afterId loopId
    let st5 := emit st4 (.br loopId)
    let st6 := genExpr (setInsertPt st5 (some loopId)) condition
    match st6.currentValue with
    | none => reportErrorCG st6 "Failed to generate while condition"
    | some c =>
      let st7 := emit st6 (.condBr c bodyId afterId)
      let st8 := genStmt (setInsertPt st7 (some bodyId)) body
      let st9 := if (insertTerminator st8).isNone then emit st8 (.br loopId) else st8
      let st10 := setInsertPt st9 (some afterId)
      popLoopTargets st10
  | .returnStmt value =>
    match value with
    | some e =>
      let st1 := genExpr st e
      match st1.currentValue with
      | some v => emit st1 (.ret v)
      | none => st1
    | none => emit st .retVoid
  | .exprStmt e => genExpr st e

/-- `LLVMCodeGenerator::generateBlock` and `visitProgram`: lower the
statements in order (no scoping of `variables_`). -/
def genStmts (st : CGState) : List Stmt → CGState
  | [] => st
  | s :: rest => genStmts (genStmt st s) rest

end

/-- Hand-written equational lemma for `genStmt` on blocks (the
automatic equation generator cannot digest the nested control flow of
the statement visitors, so each case is stated by `rfl`). -/
theorem genStmt_block (st : CGState) (stmts : List Stmt) :
    genStmt st (.block stmts) = genStmts st stmts := rfl

/-- Equational lemma for `genStmt` on variable declarations. -/
theorem genStmt_varDecl (st : CGState) (name : String) (ty : DataType)
    (initializer : Option Expr) :
    genStmt st (.varDecl name ty initializer) =
      (let varTy := getLLVMType ty
       let (slot, st1) := createAlloca st varTy name
       let st2 := declareVariable st1 name slot
       match initializer with
       | some e =>
         let st3 := genExpr st2 e
         match st3.currentValue with
         | some v => emit st3 (.store v slot)
         | none => st3
       | none => st2) := rfl

/-- Equational lemma for `genStmt` on function declarations. -/
theorem genStmt_funcDecl (st : CGState) (name : String) (returnType : DataType)
    (params : List (String × DataType)) (body : Stmt) :
    genStmt st (.funcDecl name returnType params body) =
      (let paramTys := params.map (fun p => getLLVMType p.2)
       let st1 := addModuleFunction st (name, getLLVMType returnType, paramTys, false)
       let (entryId, st2) := newBlock st1 "entry" name
       let st3 := setInsertPt st2 (some entryId)
       let st4 := genParams st3 name params 0
       let st5 := setCurrentFunction st4 (some name)
       let st6 := genStmt st5 body
       let st7 := setCurrentFunction st6 none
       if returnType = .VOID && (insertTerminator st7).isNone then
         emit st7 .retVoid
       else st7) := rfl

set_option smartUnfolding false in
/-- Equational lemma for `genStmt` on if statements without an else
arm. -/
theorem genStmt_ifStmt_none (st : CGState) (condition : Expr) (thenBranch : Stmt) :
    genStmt st (.ifStmt condition thenBranch none) =
      (let st1 := genExpr st condition
       match st1.currentValue with
       | none => reportErrorCG st1 "Failed to generate if condition"
       | some c =>
         let fn := insertFunc st1
         let (thenId, st2) := newBlock st1 "then" fn
         let (elseId, st3) := newBlock st2 "else" fn
         let (mergeId, st4) := newBlock st3 "ifcont" fn
         let st5 := emit st4 (.condBr c thenId elseId)
         let st6 := genStmt (setInsertPt st5 (some thenId)) thenBranch
         let st7 := if (insertTerminator st6).isNone then emit st6 (.br mergeId) else st6
         let st8 := setInsertPt st7 (some elseId)
         let st9 := st8
         let st10 := if (insertTerminator st9).isNone then emit st9 (.br mergeId) else st9
         setInsertPt st10 (some mergeId)) := rfl

set_option smartUnfolding false in
/-- Equational lemma for `genStmt` on if statements with an else arm. -/
theorem genStmt_ifStmt_some (st : CGState) (condition : Expr) (thenBranch : Stmt)
    (els : Stmt) :
    genStmt st (.ifStmt condition thenBranch (some els)) =
      (let st1 := genExpr st condition
       match st1.currentValue with
       | none => reportErrorCG st1 "Failed to generate if condition"
       | some c =>
         let fn := insertFunc st1
         let (thenId, st2) := newBlock st1 "then" fn
         let (elseId, st3) := newBlock st2 "else" fn
         let (mergeId, st4) := newBlock st3 "ifcont" fn
         let st5 := emit st4 (.condBr c thenId elseId)
         let st6 := genStmt (setInsertPt st5 (some thenId)) thenBranch
         let st7 := if (insertTerminator st6).isNone then emit st6 (.br mergeId) else st6
         let st8 := setInsertPt st7 (some elseId)
         let st9 := genStmt st8 els
         let st10 := if (insertTerminator st9).isNone then emit st9 (.br mergeId) else st9
         setInsertPt st10 (some mergeId)) := rfl

/-- Equational lemma for `genStmt` on while statements. -/
theorem genStmt_whileStmt (st : CGState) (condition : Expr) (body : Stmt) :
    genStmt st (.whileStmt condition body) =
      (let fn := insertFunc st
       let (loopId, st1) := newBlock st "loop" fn
       let (bodyId, st2) := newBlock st1 "while_body" fn
       let (afterId, st3) := newBlock st2 "while_cont" fn
       let st4 := pushLoopTargets st3 afterId loopId
       let st5 := emit st4 (.br loopId)
       let st6 := genExpr (setInsertPt st5 (some loopId)) condition
       match st6.currentValue with
       | none => reportErrorCG st6 "Failed to generate while condition"
       | some c =>
         let st7 := emit st6 (.condBr c bodyId afterId)
         let st8 := genStmt (setInsertPt st7 (some bodyId)) body
         let st9 := if (insertTerminator st8).isNone then emit st8 (.br loopId) else st8
         let st10 := setInsertPt st9 (some afterId)
         popLoopTargets st10) := rfl

/-- Equational lemma for `genStmt` on return statements. -/
theorem genStmt_returnStmt (st : CGState) (value : Option Expr) :
    genStmt st (.returnStmt value) =
      (match value with
       | some e =>
         let st1 := genExpr st e
         match st1.currentValue with
         | some v => emit st1 (.ret v)
         | none => st1
       | none => emit st .retVoid) := rfl

/-- Equational lemma for `genStmt` on expression statements. -/
theorem genStmt_exprStmt (st : CGState) (e : Expr) :
    genStmt st (.exprStmt e) = genExpr st e := rfl

/-- Equational lemma for `genStmts` on the empty list. -/
theorem genStmts_nil (st : CGState) : genStmts st [] = st := rfl

/-- Equational lemma for `genStmts` on a nonempty list. -/
theorem genStmts_cons (st : CGState) (s : Stmt) (rest : List Stmt) :
    genStmts st (s :: rest) = genStmts (genStmt st s) rest := rfl

/-- `LLVMCodeGenerator::generate`: success is the absence of reported
lowering errors. -/
def generate (program : Program) : Bool × CGState :=
  let st := genStmts initialCGState program
  (!st.hasErrors, st)

/-! ### Driver (`main.cpp`) -/

/-- The outcome of `compileFile` (default options: no `-E`), up to the
object-file write which is I/O. -/
inductive CompileResult where
  | lexError
  | parseFailure (msg : String)
  | semanticFailure (errors : List String)
  | codegenFailure (cg : CGState)
  | success (cg : CGState)
deriving DecidableEq, Repr

/-- `compileFile` from `main.cpp`: scan the token list for `ERROR`
tokens, parse (a `CompilerError` escaping `Parser::parse` is caught by
the surrounding `try`), run semantic analysis, then code generation. -/
def compileFile (source : String) : CompileResult :=
  let tokens := tokenize source
  if tokens.any (fun t => t.type = .ERROR) then .lexError
  else
    match parse tokens with
    | .error msg => .parseFailure msg
    | .ok program =>
      let (ok, ast) := analyze program
      if !ok then .semanticFailure ast.errors
      else
        let (genOk, cg) := generate program
        if !genOk then .codegenFailure cg
        else .success cg

/-! ### Scope-operation sequences (for the `SymbolTable` round-trip) -/

/-- A scope operation: `SymbolTable::enterScope` or
`SymbolTable::exitScope`. -/
inductive ScopeOp where
  | enter
  | exit
deriving DecidableEq, Repr

/-- Apply one scope operation. -/
def applyScopeOp (t : SymbolTable) : ScopeOp → SymbolTable
  | .enter => t.enterScope
  | .exit => t.exitScope

/-- Run a sequence of scope operations left to right. -/
def runScopeOps (t : SymbolTable) : List ScopeOp → SymbolTable
  | [] => t
  | op :: rest => runScopeOps (applyScopeOp t op) rest

/-- Balanced sequences of `enterScope`/`exitScope` pairs (Dyck words
over `enter`/`exit`): the empty sequence, a balanced sequence wrapped in
a matching pair, and the concatenation of balanced sequences. -/
inductive BalancedScopeOps : List ScopeOp → Prop
  | nil : BalancedScopeOps []
  | wrap {l : List ScopeOp} :
      BalancedScopeOps l → BalancedScopeOps (ScopeOp.enter :: l ++ [ScopeOp.exit])
  | append {l₁ l₂ : List ScopeOp} :
      BalancedScopeOps l₁ → BalancedScopeOps l₂ → BalancedScopeOps (l₁ ++ l₂)

/-! ### Statement-level declaration predicate (for the variable-map
persistence property) -/

mutual

/-- Whether lowering the statement ever calls `declareVariable` for the
name `n`: a variable declaration of `n`, or (transitively) a function
declaration with a parameter named `n` or a body declaring `n`. -/
def declaresVar (n : String) : Stmt → Bool
  | .block stmts => declaresVarList n stmts
  | .varDecl m _ _ => m = n
  | .funcDecl _ _ params body => params.any (fun p => p.1 = n) || declaresVar n body
  | .ifStmt _ thenBranch elseBranch =>
    declaresVar n thenBranch ||
      (match elseBranch with
       | some s => declaresVar n s
       | none => false)
  | .whileStmt _ body => declaresVar n body
  | .returnStmt _ => false
  | .exprStmt _ => false

/-- `declaresVar` over a statement list. -/
def declaresVarList (n : String) : List Stmt → Bool
  | [] => false
  | s :: rest => declaresVar n s || declaresVarList n rest

end

set_option smartUnfolding false in
/-- Hand-written equational lemmas for `declaresVar` (stated by `rfl`;
the automatic equation generator cannot digest the nested option
match). -/
theorem declaresVar_block (n : String) (stmts : List Stmt) :
    declaresVar n (.block stmts) = declaresVarList n stmts := rfl

set_option smartUnfolding false in
/-- See `declaresVar_block`. -/
theorem declaresVar_varDecl (n m : String) (ty : DataType) (init : Option Expr) :
    declaresVar n (.varDecl m ty init) = decide (m = n) := rfl

set_option smartUnfolding false in
/-- See `declaresVar_block`. -/
theorem declaresVar_funcDecl (n fn : String) (rt : DataType)
    (params : List (String × DataType)) (body : Stmt) :
    declaresVar n (.funcDecl fn rt params body) =
      (params.any (fun p => p.1 = n) || declaresVar n body) := rfl

set_option smartUnfolding false in
/-- See `declaresVar_block`. -/
theorem declaresVar_ifStmt_none (n : String) (c : Expr) (t : Stmt) :
    declaresVar n (.ifStmt c t none) = (declaresVar n t || false) := rfl

set_option smartUnfolding false in
/-- See `declaresVar_block`. -/
theorem declaresVar_ifStmt_some (n : String) (c : Expr) (t s : Stmt) :
    declaresVar n (.ifStmt c t (some s)) =
      (declaresVar n t || declaresVar n s) := rfl

set_option smartUnfolding false in
/-- See `declaresVar_block`. -/
theorem declaresVar_whileStmt (n : String) (c : Expr) (body : Stmt) :
    declaresVar n (.whileStmt c body) = declaresVar n body := rfl

set_option smartUnfolding false in
/-- See `declaresVar_block`. -/
theorem declaresVar_returnStmt (n : String) (v : Option Expr) :
    declaresVar n (.returnStmt v) = false := rfl

set_option smartUnfolding false in
/-- See `declaresVar_block`. -/
theorem declaresVar_exprStmt (n : String) (e : Expr) :
    declaresVar n (.exprStmt e) = false := rfl

set_option smartUnfolding false in
/-- See `declaresVar_block`. -/
theorem declaresVarList_nil (n : String) : declaresVarList n [] = false := rfl

set_option smartUnfolding false in
/-- See `declaresVar_block`. -/
theorem declaresVarList_cons (n : String) (s : Stmt) (rest : List Stmt) :
    declaresVarList n (s :: rest) = (declaresVar n s || declaresVarList n rest) := rfl

/-! ### Helpers naming the two components of `visitReturnStatement`'s
value check -/

/-- The `returnType` local of `SemanticAnalyzer::visitReturnStatement`:
a bare `return` is treated as `VOID`, else the value's checked type. -/
def returnValueType (st : AnalyzerState) : Option Expr → DataType
  | some e => (checkExpression st e).1
  | none => .VOID

/-- The analyzer state after checking a return statement's value (the
state itself when the return is bare). -/
def returnValueState (st : AnalyzerState) : Option Expr → AnalyzerState
  | some e => (checkExpression st e).2
  | none => st

/-! ### Concrete programs used by the claims -/

/-- Scenario S1 of the specification. -/
def s1Source : String := "var x: int = 42;"

/-- Scenario S5 of the specification. -/
def s5Source : String := "function f(): int { return; }"

/-- The syntax tree S5 was meant to parse to: `f` declared with return
type `INT` and a bare `return` in its body. -/
def s5Ast : Program := [.funcDecl "f" .INT [] (.block [.returnStmt none])]

/-- A program accepted by semantic analysis whose only function lowers
two return statements into the same basic block. -/
def doubleReturnSource : String := "function f() \x7b return; return; \x7d"

/-- The syntax tree of `doubleReturnSource`. -/
def doubleReturnAst : Program :=
  [.funcDecl "f" .VOID [] (.block [.returnStmt none, .returnStmt none])]

/-- `f` declares a local `a`; `g`, lowered afterwards, reads `a`. -/
def leakSource : String :=
  "function f() \x7b var a = 1; \x7d function g() \x7b return a; \x7d"

/-- The declaration of `f` in `leakSource`. -/
def leakF : Stmt :=
  .funcDecl "f" .VOID []
    (.block [.varDecl "a" .UNKNOWN (some (.literal "1" .INT))])

/-- The declaration of `g` in `leakSource`. -/
def leakG : Stmt :=
  .funcDecl "g" .VOID [] (.block [.returnStmt (some (.varRef "a"))])

/-- The token stream the lexer produces for `a / b;` (identifier
operands around a `DIVIDE` token), generalized over the two identifier
lexemes. -/
def divisionTokens (a b : String) : List Token :=
  [{ type := .IDENTIFIER, value := a }, { type := .DIVIDE, value := "/" },
   { type := .IDENTIFIER, value := b }, { type := .SEMICOLON, value := ";" },
   { type := .END_OF_FILE, value := "" }]

/-- The token stream of `a + b * c;` for integer literals `a`, `b`,
`c`. -/
def sumProdTokens (a b c : String) : List Token :=
  [{ type := .INTEGER, value := a }, { type := .PLUS, value := "+" },
   { type := .INTEGER, value := b }, { type := .MULTIPLY, value := "*" },
   { type := .INTEGER, value := c }, { type := .SEMICOLON, value := ";" },
   { type := .END_OF_FILE, value := "" }]

/-- The token stream of `a * b + c;` for integer literals `a`, `b`,
`c`. -/
def prodSumTokens (a b c : String) : List Token :=
  [{ type := .INTEGER, value := a }, { type := .MULTIPLY, value := "*" },
   { type := .INTEGER, value := b }, { type := .PLUS, value := "+" },
   { type := .INTEGER, value := c }, { type := .SEMICOLON, value := ";" },
   { type := .END_OF_FILE, value := "" }]

/-! ## Claims -/

/-- Claim C1.  The pipeline does NOT accept `var x: int = 42;`: the
lexer has no case for `:` and emits an ERROR token
("Unexpected character: :"), so `compileFile` stops with a lexical
error; the parser, were it reached, would also throw, because the ERROR
token matches neither `COLON` (which the lexer never produces) nor
`SEMICOLON`.  This contradicts scenario S1 of the specification
("No errors; symbol x: INT"). -/
theorem c1_s1_fails_at_lexer :
    ({ type := .ERROR, value := "Unexpected character: :" } : Token) ∈ tokenize s1Source ∧
    ((tokenize s1Source).any (fun t => t.type == TokenType.ERROR)) = true ∧
    compileFile s1Source = .lexError ∧
    parse (tokenize s1Source) = .error "Expect ';' after variable declaration." := by
  refine ⟨by decide, rfl, rfl, rfl⟩

/-- Claim C2.  Division never parses: `Parser::parseFactor` tests
`TokenType::SLASH`, but the lexer lexes `/` as `DIVIDE`, so for any
identifier operands the parse of `a / b ;` throws
"Expect ';' after expression." instead of producing
`Binary(a, DIVIDE, b)`. -/
theorem c2_division_tokens_never_parse :
    tokenize "a / b;" = divisionTokens "a" "b" ∧
    ∀ a b : String,
      parse (divisionTokens a b) = .error "Expect ';' after expression." :=
  ⟨rfl, fun _ _ => rfl⟩

/-- Claim C3.  A counterexample to the terminator invariant:
`function f() { return; return; }` is accepted by semantic analysis,
yet `visitReturnStatement` emits its return at the current insertion
point without checking for an existing terminator, so `f`'s entry block
receives two `ret void` terminators (an instruction after a
terminator). -/
theorem c3_double_return_breaks_terminator_invariant :
    parse (tokenize doubleReturnSource) = .ok doubleReturnAst ∧
    (analyze doubleReturnAst).1 = true ∧
    (∃ b ∈ (generate doubleReturnAst).2.blocks,
      b.instrs = [Instr.retVoid, Instr.retVoid] ∧
      (b.instrs.filter isTerminator).length = 2) ∧
    (generate doubleReturnAst).1 = true := by
  refine ⟨rfl, rfl, ⟨⟨0, "entry", "f", [Instr.retVoid, Instr.retVoid]⟩, by decide, rfl, by decide⟩, rfl⟩

/-- Claim C4, counterexample.  The name-to-slot map is NOT refreshed per
function body: after lowering `function f() { var a = 1; }`, the slot
allocated for `f`'s local `a` (the alloca in `f`'s entry block) is still
resolvable by name when lowering of `g` begins, and inside `g`'s body —
lowering `function g() { return a; }` emits a load of `f`'s slot into
`g`'s entry block instead of reporting an undefined variable. -/
theorem c4_slot_of_previous_function_still_resolvable :
    parse (tokenize leakSource) = .ok [leakF, leakG] ∧
    getVariable (genStmt initialCGState leakF) "a" = some (.instr 0 .ptr) ∧
    (∃ b ∈ (genStmt initialCGState leakF).blocks,
      b.func = "f" ∧ Instr.alloca 0 .i32 "a" ∈ b.instrs) ∧
    (∃ b ∈ (generate [leakF, leakG]).2.blocks,
      b.func = "g" ∧ Instr.load 1 .i32 (.instr 0 .ptr) ∈ b.instrs) ∧
    (generate [leakF, leakG]).2.errors = [] := by
  refine ⟨rfl, rfl,
    ⟨⟨0, "entry", "f", [.alloca 0 .i32 "a", .store (.constInt .i32 1) (.instr 0 .ptr),
        .retVoid]⟩, by decide, by decide, by decide⟩,
    ⟨⟨1, "entry", "g", [.load 1 .i32 (.instr 0 .ptr), .ret (.instr 1 .i32)]⟩,
      by decide, by decide, by decide⟩, rfl⟩

/-- Claim C5, counterexample.  `Lexer::readNumber` consumes a decimal
point even when no digit follows and classifies on the flag alone, so
`1.` followed by a non-digit lexes as the single FLOAT token `"1."`
— not as an INTEGER token for `1` as the claim states. -/
theorem c5_trailing_dot_lexes_as_float :
    tokenize "1.;" =
      [{ type := .FLOAT, value := "1." }, { type := .SEMICOLON, value := ";" },
       { type := .END_OF_FILE, value := "" }] ∧
    ((tokenize "1.;").all (fun t => t.type != TokenType.INTEGER)) = true := by
  refine ⟨rfl, rfl⟩

/-- Claim C8.  Parser precedence: for any integer-literal lexemes, the
token stream of `a + b * c;` parses to `Binary(a, +, Binary(b, *, c))`
and that of `a * b + c;` parses to `Binary(Binary(a, *, b), +, c)`, and
the lexer produces exactly those token streams. -/
theorem c8_precedence_and_left_associativity :
    (∀ a b c : String, parse (sumProdTokens a b c) =
      .ok [.exprStmt (.binary (.literal a .INT) .ADD
        (.binary (.literal b .INT) .MULTIPLY (.literal c .INT)))]) ∧
    (∀ a b c : String, parse (prodSumTokens a b c) =
      .ok [.exprStmt (.binary (.binary (.literal a .INT) .MULTIPLY (.literal b .INT))
        .ADD (.literal c .INT))]) ∧
    tokenize "1 + 2 * 3;" = sumProdTokens "1" "2" "3" ∧
    tokenize "10 * 2 + 3;" = prodSumTokens "10" "2" "3" :=
  ⟨fun _ _ _ => rfl, fun _ _ _ => rfl, rfl, rfl⟩

/-- Auxiliary: escaping then unescaping a character list is the
identity (each escaped pair is undone by the corresponding
`unescapeString` switch case; an unescaped character cannot be a
backslash, so it is copied verbatim). -/
theorem unescapeChars_escapeChars (l : List Char) :
    unescapeChars (escapeChars l) = l := by
  induction l with
  | nil => rfl
  | cons c rest ih =>
    by_cases h1 : c = '\\'
    · subst h1; simp [escapeChars, escapeChar, unescapeChars, unescChar, ih]
    · by_cases h2 : c = '"'
      · subst h2; simp [escapeChars, escapeChar, unescapeChars, unescChar, ih]
      · by_cases h3 : c = '\n'
        · subst h3; simp [escapeChars, escapeChar, unescapeChars, unescChar, ih]
        · by_cases h4 : c = '\t'
          · subst h4; simp [escapeChars, escapeChar, unescapeChars, unescChar, ih]
          · by_cases h5 : c = '\r'
            · subst h5; simp [escapeChars, escapeChar, unescapeChars, unescChar, ih]
            · rw [escapeChars, escapeChar, if_neg h1, if_neg h2, if_neg h3, if_neg h4,
                if_neg h5, List.singleton_append, unescapeChars.eq_def]
              simp [h1, ih]

/-- Claim C10.  The escape helpers round-trip: for every string,
`unescapeString (escapeString s) = s`. -/
theorem c10_escape_unescape_roundtrip (s : String) :
    unescapeString (escapeString s) = s := by
  cases s with
  | mk data =>
    show String.mk (unescapeChars (escapeChars data)) = String.mk data
    rw [unescapeChars_escapeChars]

/-- Auxiliary: running a concatenation of scope-operation sequences is
running them in order. -/
theorem runScopeOps_append (t : SymbolTable) (l₁ l₂ : List ScopeOp) :
    runScopeOps t (l₁ ++ l₂) = runScopeOps (runScopeOps t l₁) l₂ := by
  induction l₁ generalizing t with
  | nil => rfl
  | cons op rest ih => simp [runScopeOps, ih]

/-- Auxiliary: a balanced sequence of `enterScope`/`exitScope` pairs
returns a nonempty scope stack to exactly its initial value (during the
sequence the stack never drops to the protected global scope, so every
`exitScope` really pops). -/
theorem runScopeOps_balanced (ops : List ScopeOp) (hbal : BalancedScopeOps ops) :
    ∀ t : SymbolTable, t ≠ [] → runScopeOps t ops = t := by
  induction hbal with
  | nil => intro t _; rfl
  | wrap hsub ih =>
    intro t ht
    show runScopeOps ([] :: t) (_ ++ [ScopeOp.exit]) = t
    rw [runScopeOps_append, ih ([] :: t) (by simp)]
    show SymbolTable.exitScope ([] :: t) = t
    cases t with
    | nil => exact absurd rfl ht
    | cons s rest => simp [SymbolTable.exitScope]
  | append h1 h2 ih1 ih2 =>
    intro t ht
    rw [runScopeOps_append, ih1 t ht, ih2 t ht]

/-- Claim C9.  SymbolTable scope round-trip: from any nonempty table
state (the constructor guarantees nonemptiness and `exitScope` preserves
it), any balanced sequence of `enterScope`/`exitScope` pairs restores
the table, and in particular every `lookup` — the set of visible
symbols — is unchanged. -/
theorem c9_scope_roundtrip (t : SymbolTable) (ops : List ScopeOp)
    (hbal : BalancedScopeOps ops) (ht : t ≠ []) :
    runScopeOps t ops = t ∧
    ∀ n, (runScopeOps t ops).lookup n = t.lookup n := by
  refine ⟨runScopeOps_balanced ops hbal t ht, fun n => ?_⟩
  rw [runScopeOps_balanced ops hbal t ht]

/-- Claim C9, witness: two nested scope pairs applied to a table holding
one symbol. -/
theorem c9_scope_roundtrip_witness :
    ([[("x", { name := "x", type := DataType.INT, isFunction := false })]] : SymbolTable) ≠ [] ∧
    runScopeOps [[("x", { name := "x", type := DataType.INT, isFunction := false })]]
        [ScopeOp.enter, ScopeOp.enter, ScopeOp.exit, ScopeOp.exit] =
      [[("x", { name := "x", type := DataType.INT, isFunction := false })]] := by
  have hbal : BalancedScopeOps [ScopeOp.enter, ScopeOp.enter, ScopeOp.exit, ScopeOp.exit] :=
    BalancedScopeOps.wrap (BalancedScopeOps.wrap BalancedScopeOps.nil)
  exact ⟨by simp,
    (c9_scope_roundtrip _ _ hbal (by simp)).1⟩

/-- Auxiliary: a digit is not a decimal point. -/
theorem ne_dot_of_isDigit {c : Char} (hc : isDigit c = true) : ('.' : Char) ≠ c := by
  intro h
  rw [← h] at hc
  exact absurd hc (by decide)

/-- Auxiliary specification of the `readNumber` scanning loop: the final
decimal flag records exactly whether a `.` was consumed (given the
incoming flag); with the flag already set no further `.` is consumed; at
most one `.` is consumed in total; and when scanning stops at a `.` the
flag is set (a second `.` terminates the number). -/
theorem readNumberLoop_spec (s : List Char) : ∀ (hd0 : Bool) tl hd rem,
    readNumberLoop hd0 s = (tl, hd, rem) →
    (hd = true ↔ (hd0 = true ∨ '.' ∈ tl)) ∧
    (hd0 = true → '.' ∉ tl) ∧
    tl.count '.' ≤ 1 ∧
    (∀ d rem2, rem = d :: rem2 → d = '.' → hd = true) := by
  induction s with
  | nil =>
    intro hd0 tl hd rem h
    rw [readNumberLoop] at h
    simp only [Prod.mk.injEq] at h
    obtain ⟨h1, h2, h3⟩ := h
    subst h1; subst h2; subst h3
    simp
  | cons c rest ih =>
    intro hd0 tl hd rem h
    rw [readNumberLoop] at h
    split at h
    case isTrue hg =>
      rcases hrec : readNumberLoop (hd0 || c = '.') rest with ⟨tl', hd', rem'⟩
      rw [hrec] at h
      simp only [Prod.mk.injEq] at h
      obtain ⟨h1, h2, h3⟩ := h
      subst h1; subst h2; subst h3
      obtain ⟨s1, s2, s3, s4⟩ := ih (hd0 || c = '.') tl' hd' rem' hrec
      by_cases hcd : c = '.'
      · subst hcd
        have hhd0 : hd0 = false := by
          rcases Bool.eq_false_or_eq_true hd0 with h0 | h0
          · rw [h0] at hg; exact absurd hg (by decide)
          · exact h0
        subst hhd0
        have hmem := s2
        have hdone : hd' = true := s1.mpr (Or.inl (by decide))
        have hnotl : '.' ∉ tl' := s2 (by decide)
        refine ⟨?_, ?_, ?_, s4⟩
        · simp [hdone, List.mem_cons]
        · intro h0; exact absurd h0 (by decide)
        · have hz : tl'.count '.' = 0 := List.count_eq_zero.mpr hnotl
          simp [List.count_cons, hz]
      · refine ⟨?_, ?_, ?_, s4⟩
        · rw [s1]
          constructor
          · rintro (h1 | h1)
            · rw [Bool.or_eq_true] at h1
              rcases h1 with h2 | h2
              · exact Or.inl h2
              · exact absurd (of_decide_eq_true h2) hcd
            · exact Or.inr (List.mem_cons_of_mem _ h1)
          · rintro (h1 | h1)
            · refine Or.inl ?_
              rw [Bool.or_eq_true]
              exact Or.inl h1
            · rcases List.mem_cons.mp h1 with h2 | h2
              · exact absurd h2.symm hcd
              · exact Or.inr h2
        · intro h0
          have hnot := s2 (by rw [h0]; rfl)
          intro hmem
          rcases List.mem_cons.mp hmem with h2 | h2
          · exact hcd h2.symm
          · exact hnot h2
        · simpa [List.count_cons, hcd] using s3
    case isFalse hg =>
      simp only [Prod.mk.injEq] at h
      obtain ⟨h1, h2, h3⟩ := h
      subst h1; subst h2; subst h3
      refine ⟨by simp, by simp, by simp, ?_⟩
      intro d rem2 heq hdot
      subst hdot
      injection heq with hcd hrest
      subst hcd
      rcases Bool.eq_false_or_eq_true hd0 with h0 | h0
      · exact h0
      · exfalso; apply hg; rw [h0]; decide

/-- Claim C5, amended.  `readNumber` classifies a digit-initiated token
as FLOAT exactly when its lexeme contains a decimal point (which need
not be followed by a digit); at most one `.` is consumed, and scanning
stops at a second `.`. -/
theorem c5_amended_number_classification (c : Char) (s : List Char)
    (hc : isDigit c = true) :
    ((readNumber c s).1.type = .FLOAT ∨ (readNumber c s).1.type = .INTEGER) ∧
    ((readNumber c s).1.type = .FLOAT ↔ '.' ∈ (readNumber c s).1.value.data) ∧
    (readNumber c s).1.value.data.count '.' ≤ 1 ∧
    (∀ d rem2, (readNumber c s).2 = d :: rem2 → d = '.' →
      (readNumber c s).1.type = .FLOAT) := by
  rcases hrec : readNumberLoop false s with ⟨tl, hd, rem⟩
  obtain ⟨s1, -, s3, s4⟩ := readNumberLoop_spec s false tl hd rem hrec
  have hcne : ('.' : Char) ≠ c := ne_dot_of_isDigit hc
  have hval : (readNumber c s).1.value.data = c :: tl := by
    simp [readNumber, hrec]
  have hrem : (readNumber c s).2 = rem := by
    simp [readNumber, hrec]
  have hcount : (readNumber c s).1.value.data.count '.' ≤ 1 := by
    rw [hval]
    have hcdot : ¬(c = '.') := fun h => hcne h.symm
    simpa [List.count_cons, hcdot] using s3
  cases hd with
  | false =>
    have htype : (readNumber c s).1.type = TokenType.INTEGER := by
      simp [readNumber, hrec]
    refine ⟨Or.inr htype, ?_, hcount, ?_⟩
    · rw [htype, hval]
      constructor
      · intro h; exact absurd h (by decide)
      · intro hmem
        rcases List.mem_cons.mp hmem with h | h
        · exact absurd h hcne
        · exact absurd (s1.mpr (Or.inr h)) (by decide)
    · intro d rem2 heq hdot
      rw [hrem] at heq
      exact absurd (s4 d rem2 heq hdot) (by decide)
  | true =>
    have htype : (readNumber c s).1.type = TokenType.FLOAT := by
      simp [readNumber, hrec]
    have hmem : '.' ∈ tl := by
      rcases s1.mp rfl with h | h
      · exact absurd h (by decide)
      · exact h
    refine ⟨Or.inl htype, ?_, hcount, ?_⟩
    · rw [htype, hval]
      exact ⟨fun _ => List.mem_cons_of_mem _ hmem, fun _ => rfl⟩
    · intro d rem2 _ _
      exact htype

/-- Claim C5, amended, witness: scanning `1.;` (first digit `1`, rest
`.;`). -/
theorem c5_amended_number_classification_witness :
    isDigit '1' = true ∧
    ((readNumber '1' ".;".data).1.type = .FLOAT ∨
      (readNumber '1' ".;".data).1.type = .INTEGER) :=
  ⟨by decide, (c5_amended_number_classification '1' ".;".data (by decide)).1⟩

/-- Auxiliary: appending an error message changes the error list. -/
theorem append_singleton_ne (l : List String) (x : String) : l ++ [x] ≠ l := by
  intro h
  have := congrArg List.length h
  simp at this

/-- Concrete analyzer state for the compatibility witness: a single
scope binding `x` to an `INT` variable. -/
def c6State : AnalyzerState :=
  { errors := []
    symbolTable := [[("x", { name := "x", type := .INT, isFunction := false })]]
    inLoop := false
    inFunction := false
    currentFunctionReturnType := .VOID }

/-- Claim C6.  `isCompatible from to` holds iff the types are equal, or
either side is UNKNOWN, or both are numeric (INT/FLOAT, either
direction); and for an assignment to a resolvable variable the analyzer
reports an error — beyond any errors of the value expression itself —
exactly when the value type is incompatible with the variable's type
(the result type being the variable's type). -/
theorem c6_compatibility_characterization :
    (∀ a b : DataType, isCompatible a b = true ↔
      (a = b ∨ a = .UNKNOWN ∨ b = .UNKNOWN ∨
        ((a = .INT ∨ a = .FLOAT) ∧ (b = .INT ∨ b = .FLOAT)))) ∧
    (∀ (st : AnalyzerState) (name : String) (value : Expr) (sym : Symbol),
      ((checkExpression st value).2).symbolTable.lookup name = some sym →
      (checkExpression st (.assignment name value)).1 = sym.type ∧
      ((checkExpression st (.assignment name value)).2.errors ≠
          (checkExpression st value).2.errors ↔
        isCompatible (checkExpression st value).1 sym.type = false)) := by
  constructor
  · intro a b
    cases a <;> cases b <;> simp [isCompatible]
  · intro st name value sym hlook
    rcases hpair : checkExpression st value with ⟨vt, st1⟩
    rw [hpair] at hlook
    have hstep : checkExpression st (.assignment name value) =
        if !isCompatible vt sym.type then
          (sym.type, reportError st1 ("Cannot assign " ++ dataTypeToString vt ++
            " to variable of type " ++ dataTypeToString sym.type))
        else (sym.type, st1) := by
      simp only [checkExpression, hpair, hlook]
    rcases hcomp : isCompatible vt sym.type with _ | _
    · rw [hstep]
      simp [hpair, hcomp, reportError, append_singleton_ne]
    · rw [hstep]
      simp [hpair, hcomp]

/-- Claim C6, witness: assigning a STRING literal to the INT variable
`x` is reported as incompatible. -/
theorem c6_compatibility_characterization_witness :
    ((checkExpression c6State (.literal "s" .STRING)).2).symbolTable.lookup "x" =
      some { name := "x", type := .INT, isFunction := false } ∧
    (checkExpression c6State (.assignment "x" (.literal "s" .STRING))).1 =
      ({ name := "x", type := .INT, isFunction := false } : Symbol).type :=
  ⟨rfl,
   ((c6_compatibility_characterization.2 c6State "x" (.literal "s" .STRING)
      { name := "x", type := .INT, isFunction := false } rfl).1)⟩

/-- Claim C7.  `visitReturnStatement` reports exactly one error when the
statement occurs outside any function (without checking the value); when
inside a function it reports exactly one error — beyond those of the
value expression — iff the value type (VOID for a bare return) is
incompatible with the enclosing function's declared return type.  On the
intended syntax tree of S5 the analyzer indeed reports
"Return type mismatch"; but the concrete source
`function f(): int { return; }` never reaches semantic analysis: its `:`
lexes to an ERROR token, so the driver stops with a lexical error, and
the parser would throw "Expect '\x7b' before function body.". -/
theorem c7_return_check_and_s5_pipeline :
    (∀ (st : AnalyzerState) (v : Option Expr),
      (checkStatement st (.returnStmt v)).errors.length =
        if st.inFunction = false then st.errors.length + 1
        else (returnValueState st v).errors.length +
          (if isCompatible (returnValueType st v) st.currentFunctionReturnType
           then 0 else 1)) ∧
    (checkStatements initialAnalyzerState s5Ast).errors = ["Return type mismatch"] ∧
    compileFile s5Source = .lexError ∧
    parse (tokenize s5Source) = .error "Expect '\x7b' before function body." := by
  refine ⟨?_, rfl, rfl, rfl⟩
  intro st v
  rcases hf : st.inFunction with _ | _
  · rw [if_pos rfl]
    cases v with
    | none =>
      simp only [checkStatement, hf]
      simp [reportError]
    | some e =>
      simp only [checkStatement, hf]
      simp [reportError]
  · rw [if_neg (by simp)]
    cases v with
    | none =>
      simp only [checkStatement, hf]
      rcases hcomp : isCompatible .VOID st.currentFunctionReturnType with _ | _
      · simp [hcomp, reportError, returnValueState, returnValueType]
      · simp [hcomp, returnValueState, returnValueType]
    | some e =>
      rcases hpair : checkExpression st e with ⟨vt, st1⟩
      simp only [checkStatement, hf, hpair]
      rcases hcomp : isCompatible vt st.currentFunctionReturnType with _ | _
      · simp [hcomp, reportError, returnValueState, returnValueType, hpair]
      · simp [hcomp, returnValueState, returnValueType, hpair]

/-! ### Preservation of the name-to-slot map through lowering -/

/-- Auxiliary: emission leaves `variables_` untouched. -/
theorem emit_vars (st : CGState) (i : Instr) : (emit st i).vars = st.vars := by
  unfold emit
  cases st.insertPt <;> rfl

/-- Auxiliary: stack-slot allocation leaves `variables_` untouched. -/
theorem createAlloca_vars (st : CGState) (ty : LType) (name : String) :
    ((createAlloca st ty name).2).vars = st.vars := by
  unfold createAlloca freshValue
  split
  rename_i id1 st1 heq
  injection heq with h1 h2
  subst h2
  dsimp only
  split <;> rfl

/-- Auxiliary: binary-operation emission leaves `variables_`
untouched. -/
theorem generateBinaryOperation_vars (st : CGState) (l : Value) (op : OperatorType)
    (r : Value) : (generateBinaryOperation st l op r).vars = st.vars := by
  cases op <;>
    simp only [generateBinaryOperation] <;>
    first
      | (split <;> simp [setCV, emit_vars, freshValue])
      | simp [setCV, reportErrorCG]

/-- Auxiliary: unary-operation emission leaves `variables_` untouched. -/
theorem generateUnaryOperation_vars (st : CGState) (op : OperatorType) (v : Value) :
    (generateUnaryOperation st op v).vars = st.vars := by
  cases op <;>
    simp only [generateUnaryOperation] <;>
    first
      | (split <;> simp [setCV, emit_vars, freshValue])
      | simp [setCV, emit_vars, freshValue, reportErrorCG]

mutual

/-- Auxiliary: expression lowering never modifies `variables_` (only
`declareVariable` does, and it is called only from variable declarations
and parameter set-up). -/
theorem genExpr_vars (st : CGState) (e : Expr) : (genExpr st e).vars = st.vars := by
  cases e with
  | literal v ty => cases ty <;> simp [genExpr, setCV, reportErrorCG]
  | varRef name =>
    simp only [genExpr]
    cases h : getVariable st name <;>
      simp [h, reportErrorCG, setCV, emit_vars, freshValue]
  | binary l op r =>
    have hl := genExpr_vars st l
    have hr := genExpr_vars (genExpr st l) r
    simp only [genExpr]
    cases h1 : (genExpr st l).currentValue <;>
      cases h2 : (genExpr (genExpr st l) r).currentValue <;>
      simp [h1, h2, reportErrorCG, generateBinaryOperation_vars, hr, hl]
  | unary op e1 =>
    have h1 := genExpr_vars st e1
    simp only [genExpr]
    cases h : (genExpr st e1).currentValue <;>
      simp [h, reportErrorCG, generateUnaryOperation_vars, h1]
  | assignment name value =>
    have h1 := genExpr_vars st value
    simp only [genExpr]
    cases h : (genExpr st value).currentValue with
    | none => simp [h, reportErrorCG, h1]
    | some v =>
      cases h2 : getVariable (genExpr st value) name <;>
        simp [h, h2, reportErrorCG, setCV, emit_vars, h1]
  | call name args =>
    simp only [genExpr]
    cases hf : getModuleFunction st name with
    | none => simp [hf, reportErrorCG]
    | some f =>
      have ha := genCallArgs_vars st args
      cases hargs : genCallArgs st args with
      | mk o st1 =>
        rw [hargs] at ha
        cases o <;> simp [hf, hargs, reportErrorCG, setCV, emit_vars, freshValue] <;>
          exact ha

/-- Auxiliary: call-argument lowering never modifies `variables_`. -/
theorem genCallArgs_vars (st : CGState) (args : List Expr) :
    (genCallArgs st args).2.vars = st.vars := by
  cases args with
  | nil => rfl
  | cons a rest =>
    have h1 := genExpr_vars st a
    simp only [genCallArgs]
    cases h : (genExpr st a).currentValue with
    | none => simp [h, reportErrorCG, h1]
    | some v =>
      have h2 := genCallArgs_vars (genExpr st a) rest
      cases hrec : genCallArgs (genExpr st a) rest with
      | mk o st2 =>
        rw [hrec] at h2
        cases o <;> simp [h, hrec] <;> rw [h2, h1]

end

/-- Auxiliary: an emit-or-not step (the unterminated-block checks)
leaves `variables_` untouched. -/
theorem vars_ite_emit (c : Prop) [Decidable c] (st : CGState) (i : Instr) :
    (if c then emit st i else st).vars = st.vars := by
  split
  · exact emit_vars st i
  · rfl

/-- Auxiliary: the small state helpers leave `variables_` untouched. -/
theorem setInsertPt_vars (st : CGState) (p : Option Nat) :
    (setInsertPt st p).vars = st.vars := rfl

/-- Auxiliary: see `setInsertPt_vars`. -/
theorem setCurrentFunction_vars (st : CGState) (f : Option String) :
    (setCurrentFunction st f).vars = st.vars := rfl

/-- Auxiliary: see `setInsertPt_vars`. -/
theorem addModuleFunction_vars (st : CGState) (f : String × LType × List LType × Bool) :
    (addModuleFunction st f).vars = st.vars := rfl

/-- Auxiliary: see `setInsertPt_vars`. -/
theorem pushLoopTargets_vars (st : CGState) (a b : Nat) :
    (pushLoopTargets st a b).vars = st.vars := rfl

/-- Auxiliary: see `setInsertPt_vars`. -/
theorem popLoopTargets_vars (st : CGState) :
    (popLoopTargets st).vars = st.vars := rfl

/-- Auxiliary: error reporting leaves `variables_` untouched. -/
theorem reportErrorCG_vars (st : CGState) (m : String) :
    (reportErrorCG st m).vars = st.vars := rfl

/-- Auxiliary: parameter set-up rebinds only the parameter names: the
slot bound to any other name is unchanged. -/
theorem genParams_varsFind (fn n : String) :
    ∀ (params : List (String × DataType)) (st : CGState) (i : Nat),
    params.any (fun p => p.1 = n) = false →
    (genParams st fn params i).vars.find? (fun p => p.1 = n) =
      st.vars.find? (fun p => p.1 = n) := by
  intro params
  induction params with
  | nil => intro st i _; rfl
  | cons p rest ih =>
    intro st i hany
    obtain ⟨pname, pty⟩ := p
    simp only [List.any_cons, Bool.or_eq_false_iff] at hany
    obtain ⟨hne, hrest⟩ := hany
    rcases hca : createAlloca st (getLLVMType pty) pname with ⟨slot, st1⟩
    have hv1 : st1.vars = st.vars := by
      have h0 := createAlloca_vars st (getLLVMType pty) pname
      rw [hca] at h0
      exact h0
    rw [genParams, hca]
    dsimp only
    rw [ih _ (i + 1) hrest]
    simp only [declareVariable, emit_vars]
    rw [List.find?_cons_of_neg _ (by simpa using hne)]
    rw [hv1]

mutual

/-- Auxiliary: lowering a statement that never declares a variable or
parameter named `n` (including inside nested function declarations)
preserves the binding of `n` in the flat name-to-slot map. -/
theorem genStmt_varsFind (n : String) (st : CGState) (d : Stmt)
    (h : declaresVar n d = false) :
    (genStmt st d).vars.find? (fun p => p.1 = n) =
      st.vars.find? (fun p => p.1 = n) := by
  cases d with
  | block stmts =>
    rw [declaresVar_block] at h
    rw [genStmt_block]
    exact genStmts_varsFind n st stmts h
  | varDecl m ty init =>
    rw [declaresVar_varDecl] at h
    have hne : ¬(m = n) := by simpa using h
    rcases hca : createAlloca st (getLLVMType ty) m with ⟨slot, st1⟩
    have hv1 : st1.vars = st.vars := by
      have h0 := createAlloca_vars st (getLLVMType ty) m
      rw [hca] at h0
      exact h0
    rw [genStmt_varDecl]
    dsimp only
    rw [hca]
    cases init with
    | none =>
      dsimp only
      simp only [declareVariable]
      rw [List.find?_cons_of_neg _ (by simpa using hne)]
      rw [hv1]
    | some e =>
      dsimp only
      cases hcv : (genExpr (declareVariable st1 m slot) e).currentValue <;>
        simp only [hcv]
      · rw [genExpr_vars]
        simp only [declareVariable]
        rw [List.find?_cons_of_neg _ (by simpa using hne)]
        rw [hv1]
      · rw [emit_vars, genExpr_vars]
        simp only [declareVariable]
        rw [List.find?_cons_of_neg _ (by simpa using hne)]
        rw [hv1]
  | funcDecl fn rt params body =>
    rw [declaresVar_funcDecl] at h
    simp only [Bool.or_eq_false_iff] at h
    obtain ⟨hparams, hbody⟩ := h
    have hbody2 := fun s => genStmt_varsFind n s body hbody
    have hparams2 := fun s i => genParams_varsFind fn n params s i hparams
    rw [genStmt_funcDecl]
    simp only [newBlock]
    simp only [vars_ite_emit, setCurrentFunction_vars, hbody2, hparams2,
      setInsertPt_vars, addModuleFunction_vars]
  | ifStmt condition thenBranch elseBranch =>
    cases elseBranch with
    | none =>
      rw [declaresVar_ifStmt_none] at h
      simp only [Bool.or_eq_false_iff] at h
      obtain ⟨hthen, -⟩ := h
      have hthen2 := fun s => genStmt_varsFind n s thenBranch hthen
      rw [genStmt_ifStmt_none]
      cases hcv : (genExpr st condition).currentValue <;> simp only [hcv]
      · simp only [reportErrorCG_vars]
        rw [genExpr_vars]
      · simp only [newBlock]
        simp only [vars_ite_emit, emit_vars, hthen2, genExpr_vars, setInsertPt_vars]
    | some els =>
      rw [declaresVar_ifStmt_some] at h
      simp only [Bool.or_eq_false_iff] at h
      obtain ⟨hthen, helse⟩ := h
      have hthen2 := fun s => genStmt_varsFind n s thenBranch hthen
      have helse2 := fun s => genStmt_varsFind n s els helse
      rw [genStmt_ifStmt_some]
      cases hcv : (genExpr st condition).currentValue <;> simp only [hcv]
      · simp only [reportErrorCG_vars]
        rw [genExpr_vars]
      · simp only [newBlock]
        simp only [vars_ite_emit, emit_vars, helse2, hthen2, genExpr_vars,
          setInsertPt_vars]
  | whileStmt condition body =>
    rw [declaresVar_whileStmt] at h
    have hbody2 := fun s => genStmt_varsFind n s body h
    rw [genStmt_whileStmt]
    simp only [newBlock]
    split
    · simp only [reportErrorCG_vars, genExpr_vars, setInsertPt_vars, emit_vars,
        pushLoopTargets_vars]
    · simp only [popLoopTargets_vars, setInsertPt_vars, vars_ite_emit, emit_vars,
        hbody2, genExpr_vars, pushLoopTargets_vars]
  | returnStmt value =>
    rw [genStmt_returnStmt]
    cases value with
    | none => rw [emit_vars]
    | some e =>
      dsimp only
      cases hcv : (genExpr st e).currentValue <;> simp only [hcv]
      · rw [genExpr_vars]
      · rw [emit_vars, genExpr_vars]
  | exprStmt e =>
    rw [genStmt_exprStmt]
    rw [genExpr_vars]

/-- Auxiliary: `genStmt_varsFind` over a statement list. -/
theorem genStmts_varsFind (n : String) (st : CGState) (stmts : List Stmt)
    (h : declaresVarList n stmts = false) :
    (genStmts st stmts).vars.find? (fun p => p.1 = n) =
      st.vars.find? (fun p => p.1 = n) := by
  cases stmts with
  | nil => rfl
  | cons s rest =>
    rw [declaresVarList_cons] at h
    simp only [Bool.or_eq_false_iff] at h
    obtain ⟨hs, hrest⟩ := h
    rw [genStmts_cons]
    rw [genStmts_varsFind n _ rest hrest]
    exact genStmt_varsFind n st s hs

end

/-- Claim C4, amended.  Bindings persist across function lowering: if a
name resolves to a slot before a function declaration is lowered, and
the function declares no parameter or (transitively nested) variable of
that name, the name still resolves to the same slot afterwards — and so
throughout any later function's body up to the same proviso.  (The
counterexample shows the un-refreshed map is observable; this is the
behaviour that actually holds.) -/
theorem c4_amended_bindings_persist (st : CGState) (n : String) (v : Value)
    (fn : String) (rt : DataType) (params : List (String × DataType)) (body : Stmt)
    (h1 : declaresVar n (.funcDecl fn rt params body) = false)
    (h2 : getVariable st n = some v) :
    getVariable (genStmt st (.funcDecl fn rt params body)) n = some v := by
  have key := genStmt_varsFind n st _ h1
  unfold getVariable at h2 ⊢
  rw [key]
  exact h2

/-- Claim C4, amended, witness: after lowering `f`, the binding of `a`
persists through the lowering of `g` (which binds nothing named `a`). -/
theorem c4_amended_bindings_persist_witness :
    declaresVar "a" leakG = false ∧
    getVariable (genStmt initialCGState leakF) "a" = some (.instr 0 .ptr) ∧
    getVariable (genStmt (genStmt initialCGState leakF) leakG) "a" =
      some (.instr 0 .ptr) :=
  ⟨rfl, rfl,
   c4_amended_bindings_persist (genStmt initialCGState leakF) "a" (.instr 0 .ptr)
     "g" .VOID [] (.block [.returnStmt (some (.varRef "a"))]) rfl rfl⟩

end Scarlet
